import Mathlib

/-!
Shallow embedding of the bulletml runner (src/tree.rs, src/runner.rs).

Conventions:
* Rust `f64` values are embedded as `ℚ`.  None of the properties proved here
  depend on floating-point rounding: the engine's arithmetic on the embedded
  paths is `+ - * /` on host-supplied values, and the claims below are about
  control flow (which value is emitted, how many times a node runs, stack
  discipline), not about rounding.
* `indextree::Arena<BulletMLNode>` is embedded as a list of nodes carrying
  their adjacency (`parent`, `first_child`, `next_sibling`); `NodeId` is a
  `Nat` index.  Out-of-range arena indexing (which panics in Rust but never
  happens for ids produced by the parser) yields a harmless dummy node.
* Rust panics (`HashMap` indexing on an absent label, `unwrap()` on a missing
  required child, out-of-range parameter access, `act_turn.unwrap()`) are
  embedded as `Option.none` results.
* Rust `Vec` used as a stack (`repeat_stack`, `ref_stack`) is embedded as a
  `List` whose head is the stack top.
* Loops are embedded with explicit fuel; the fuel of the two direction
  normalization loops is computed from the input so that the loop always
  reaches its guard-failure exit (proved below).
-/

/- ℚ arithmetic in Batteries is `@[irreducible]`; re-allow unfolding so that
concrete engine runs can be evaluated by `decide`. -/
set_option allowUnsafeReducibility true in
attribute [semireducible] Rat.add Rat.sub Rat.mul Rat.inv Rat.ofScientific

namespace BulletMLRs

/-- Truncating cast emulating Rust `f64 as u32` / `f64 as usize` on the ℚ
embedding: truncation toward zero, negative values saturate to 0. -/
def ratToNat (q : ℚ) : Nat := (max q.floor 0).toNat

/-- Embedding of `tree.rs` `BulletMLType`. -/
inductive BulletMLType where
  | Vertical
  | Horizontal
deriving DecidableEq, Repr

/-- Embedding of `tree.rs` `DirectionType`. -/
inductive DirectionType where
  | Aim
  | Absolute
  | Relative
  | Sequence
deriving DecidableEq, Repr

/-- Embedding of `tree.rs` `SpeedType`. -/
inductive SpeedType where
  | Absolute
  | Relative
  | Sequence
deriving DecidableEq, Repr

/-- Embedding of `tree.rs` `HVType`. -/
inductive HVType where
  | Absolute
  | Relative
  | Sequence
deriving DecidableEq, Repr

/-- Arithmetic expression AST standing in for a compiled `fasteval`
expression (the expression crate is external to this repository; the shape
follows the expression language described for the evaluator: `+ - * /`,
parentheses, a rank reference, a random-draw reference and 1-based
positional parameter references).  The `v`/`rank`/`rand` callback semantics
embedded in `evalFExpr` below are the ones of the closure inside
`RunnerImpl::get_number_contents` in `runner.rs`. -/
inductive FExpr where
  | num : ℚ → FExpr
  | add : FExpr → FExpr → FExpr
  | sub : FExpr → FExpr → FExpr
  | mul : FExpr → FExpr → FExpr
  | div : FExpr → FExpr → FExpr
  | neg : FExpr → FExpr
  | paramRef : FExpr → FExpr
  | rankRef : FExpr
  | randRef : FExpr
deriving DecidableEq, Repr

/-- Embedding of `tree.rs` `BulletMLExpression`: either a literal constant
(fast path) or an index into the document's compiled-expression slab. -/
inductive BulletMLExpression where
  | Const : ℚ → BulletMLExpression
  | Expr : Nat → BulletMLExpression
deriving DecidableEq, Repr

/-- Embedding of `tree.rs` `BulletMLNode`. -/
inductive BulletMLNode where
  | BulletML : Option BulletMLType → BulletMLNode
  | Bullet : Option String → BulletMLNode
  | Action : Option String → BulletMLNode
  | Fire : Option String → BulletMLNode
  | ChangeDirection : BulletMLNode
  | ChangeSpeed : BulletMLNode
  | Accel : BulletMLNode
  | Wait : BulletMLExpression → BulletMLNode
  | Vanish : BulletMLNode
  | Repeat : BulletMLNode
  | Direction : Option DirectionType → BulletMLExpression → BulletMLNode
  | Speed : Option SpeedType → BulletMLExpression → BulletMLNode
  | Horizontal : HVType → BulletMLExpression → BulletMLNode
  | Vertical : HVType → BulletMLExpression → BulletMLNode
  | Term : BulletMLExpression → BulletMLNode
  | Times : BulletMLExpression → BulletMLNode
  | BulletRef : String → BulletMLNode
  | ActionRef : String → BulletMLNode
  | FireRef : String → BulletMLNode
  | Param : BulletMLExpression → BulletMLNode
deriving DecidableEq, Repr

/-- Rust `str::starts_with`, embedded as a character-list test (the kernel
can evaluate it, unlike `String.startsWith`). -/
def strStartsWith (s pre : String) : Bool := pre.data.isPrefixOf s.data

namespace BulletMLNode

/-- Embedding of `BulletMLNode::is_top_action`. -/
def is_top_action : BulletMLNode → Bool
  | .Action (some label) => strStartsWith label "top"
  | _ => false

/-- Embedding of `BulletMLNode::match_any_action`. -/
def match_any_action : BulletMLNode → Option Unit
  | .Action _ => some ()
  | .ActionRef _ => some ()
  | _ => none

/-- Embedding of `BulletMLNode::match_any_bullet`. -/
def match_any_bullet : BulletMLNode → Option Unit
  | .Bullet _ => some ()
  | .BulletRef _ => some ()
  | _ => none

/-- Embedding of `BulletMLNode::match_direction`. -/
def match_direction : BulletMLNode → Option (Option DirectionType × BulletMLExpression)
  | .Direction dir_type dir => some (dir_type, dir)
  | _ => none

/-- Embedding of `BulletMLNode::match_speed`. -/
def match_speed : BulletMLNode → Option (Option SpeedType × BulletMLExpression)
  | .Speed spd_type spd => some (spd_type, spd)
  | _ => none

/-- Embedding of `BulletMLNode::match_horizontal`. -/
def match_horizontal : BulletMLNode → Option (HVType × BulletMLExpression)
  | .Horizontal h_type h => some (h_type, h)
  | _ => none

/-- Embedding of `BulletMLNode::match_vertical`. -/
def match_vertical : BulletMLNode → Option (HVType × BulletMLExpression)
  | .Vertical v_type v => some (v_type, v)
  | _ => none

/-- Embedding of `BulletMLNode::match_term`. -/
def match_term : BulletMLNode → Option BulletMLExpression
  | .Term t => some t
  | _ => none

/-- Helper mirroring the `BulletMLNode::Times` pattern match used through
`get_first_child_matching` in `RunnerImpl::run_repeat`. -/
def match_times : BulletMLNode → Option BulletMLExpression
  | .Times t => some t
  | _ => none

end BulletMLNode

/-- One arena entry: the node payload together with its adjacency, as stored
by `indextree` (`Node::parent`, `Node::first_child`, `Node::next_sibling`). -/
structure ArenaNode where
  get : BulletMLNode
  parent : Option Nat
  first_child : Option Nat
  next_sibling : Option Nat
deriving DecidableEq, Repr

/-- Embedding of `tree.rs` `BulletML`: arena, root, the three label tables
and the compiled-expression slab. -/
structure BulletML where
  arena : List ArenaNode
  root : Nat
  bullet_refs : List (String × Nat)
  action_refs : List (String × Nat)
  fire_refs : List (String × Nat)
  expr_slab : List FExpr
deriving DecidableEq, Repr

/-- Dummy node returned on out-of-range arena indexing (see header note). -/
def dummyNode : ArenaNode := ⟨.Vanish, none, none, none⟩

/-- Arena lookup, `bml.arena[id]`. -/
def getNode (bml : BulletML) (id : Nat) : ArenaNode := bml.arena.getD id dummyNode

/-- Embedding of `BulletML::get_type` (reads the root node's type tag). -/
def BulletML.get_type (bml : BulletML) : Option BulletMLType :=
  match (getNode bml bml.root).get with
  | .BulletML t => t
  | _ => none

/-- First-child / next-sibling chase bounded by fuel, used to enumerate a
node's ordered children (`NodeId::children(&arena)`); the fuel
`bml.arena.length` suffices for every acyclic arena. -/
def childrenAux (bml : BulletML) : Nat → Option Nat → List Nat
  | 0, _ => []
  | _, none => []
  | n + 1, some c => c :: childrenAux bml n (getNode bml c).next_sibling

/-- Ordered children of a node, `parent.children(&bml.arena)`. -/
def childrenList (bml : BulletML) (p : Nat) : List Nat :=
  childrenAux bml bml.arena.length (getNode bml p).first_child

/-- Embedding of `RunnerImpl::get_first_child_id_matching`. -/
def get_first_child_id_matching {N : Type} (bml : BulletML) (parent : Nat)
    (m : BulletMLNode → Option N) : Option Nat :=
  (childrenList bml parent).find? (fun c => (m (getNode bml c).get).isSome)

/-- Embedding of `RunnerImpl::get_first_child_matching`. -/
def get_first_child_matching {N : Type} (bml : BulletML) (parent : Nat)
    (m : BulletMLNode → Option N) : Option N :=
  match (childrenList bml parent).find? (fun c => (m (getNode bml c).get).isSome) with
  | some c => m (getNode bml c).get
  | none => none

/-- Embedding of `RunnerImpl::get_children_ids_matching`. -/
def get_children_ids_matching {N : Type} (bml : BulletML) (parent : Nat)
    (m : BulletMLNode → Option N) : List Nat :=
  (childrenList bml parent).filter (fun c => (m (getNode bml c).get).isSome)

/-- Host-supplied inputs for one frame: the values the `AppRunner` query
callbacks return during that frame, plus the pull-based random stream
(`get_rand` returns `rands i` on the i-th draw overall). -/
structure Ctx where
  bulletDirection : ℚ
  aimDirection : ℚ
  bulletSpeed : ℚ
  defaultSpeed : ℚ
  rank : ℚ
  speedX : ℚ
  speedY : ℚ
  turn : Nat
  rands : Nat → ℚ

/-- Evaluation of a compiled expression against the callback of
`RunnerImpl::get_number_contents`: `v(i)` reads `parameters[i as usize - 1]`
(a panic — `none` — when the index is outside the 1-based parameter list),
`rank()` reads the host rank, `rand()` pulls the next random draw.  Returns
the value and the advanced random-draw counter. -/
def evalFExpr (params : List ℚ) (ctx : Ctx) : FExpr → Nat → Option (ℚ × Nat)
  | .num q, ri => some (q, ri)
  | .add a b, ri => do
    let (x, ri) ← evalFExpr params ctx a ri
    let (y, ri) ← evalFExpr params ctx b ri
    some (x + y, ri)
  | .sub a b, ri => do
    let (x, ri) ← evalFExpr params ctx a ri
    let (y, ri) ← evalFExpr params ctx b ri
    some (x - y, ri)
  | .mul a b, ri => do
    let (x, ri) ← evalFExpr params ctx a ri
    let (y, ri) ← evalFExpr params ctx b ri
    some (x * y, ri)
  | .div a b, ri => do
    let (x, ri) ← evalFExpr params ctx a ri
    let (y, ri) ← evalFExpr params ctx b ri
    some (x / y, ri)
  | .neg a, ri => do
    let (x, ri) ← evalFExpr params ctx a ri
    some (-x, ri)
  | .paramRef i, ri => do
    let (x, ri) ← evalFExpr params ctx i ri
    let idx := ratToNat x
    if h : 1 ≤ idx ∧ idx ≤ params.length then
      some (params.get ⟨idx - 1, by omega⟩, ri)
    else
      none
  | .rankRef, ri => some (ctx.rank, ri)
  | .randRef, ri => some (ctx.rands ri, ri + 1)

end BulletMLRs

namespace BulletMLRs

/-- Embedding of `runner.rs` `Validatable<f64>`. -/
structure Validatable where
  value : ℚ
  valid : Bool
deriving DecidableEq, Repr

/-- Embedding of `Validatable::get`. -/
def Validatable.get (v : Validatable) : ℚ := v.value

/-- Embedding of `Validatable::is_valid`. -/
def Validatable.is_valid (v : Validatable) : Bool := v.valid

/-- Embedding of `Validatable::set`. -/
def Validatable.set (_v : Validatable) (x : ℚ) : Validatable := ⟨x, true⟩

/-- Embedding of `Validatable::invalidate`. -/
def Validatable.invalidate (v : Validatable) : Validatable := ⟨v.value, false⟩

/-- Embedding of `Validatable::default`. -/
def Validatable.dflt : Validatable := ⟨0, false⟩

/-- Embedding of `runner.rs` `LinearFunc<u32, f64>` (the ramp function). -/
structure LinearFunc where
  first_x : Nat
  last_x : Nat
  first_y : ℚ
  last_y : ℚ
  gradient : ℚ
deriving DecidableEq, Repr

/-- Embedding of `LinearFunc::new`. -/
def LinearFunc.new (first_x last_x : Nat) (first_y last_y : ℚ) : LinearFunc :=
  ⟨first_x, last_x, first_y, last_y, (last_y - first_y) / ((last_x - first_x : Nat) : ℚ)⟩

/-- Embedding of `LinearFunc::get_value`. -/
def LinearFunc.get_value (f : LinearFunc) (x : Nat) : ℚ :=
  f.first_y + f.gradient * ((x - f.first_x : Nat) : ℚ)

/-- Embedding of `LinearFunc::is_last`. -/
def LinearFunc.is_last (f : LinearFunc) (x : Nat) : Bool := f.last_x ≤ x

/-- Embedding of `LinearFunc::get_last`. -/
def LinearFunc.get_last (f : LinearFunc) : ℚ := f.last_y

/-- Embedding of `runner.rs` `State`. -/
structure State where
  bml_type : Option BulletMLType
  nodes : List Nat
  parameters : List ℚ
deriving DecidableEq, Repr

/-- Embedding of `runner.rs` `RepeatElem`; the source field `end` is a Lean
keyword and is embedded as `end_count`. -/
structure RepeatElem where
  iter : Nat
  end_count : Nat
  act : Nat
deriving DecidableEq, Repr

/-- Embedding of `runner.rs` `StackedRef`. -/
structure StackedRef where
  ref_id : Nat
  prev : Nat
  prev_parameters : List ℚ
deriving DecidableEq, Repr

/-- Host commands issued through the `AppRunner` capability, in emission
order.  `createBullet` carries the captured `State` exactly as the source
passes it to `AppRunner::create_bullet`. -/
inductive Command where
  | createSimpleBullet : ℚ → ℚ → Command
  | createBullet : State → ℚ → ℚ → Command
  | vanish : Command
  | changeDirection : ℚ → Command
  | changeSpeed : ℚ → Command
  | accelX : ℚ → Command
  | accelY : ℚ → Command
deriving DecidableEq, Repr

/-- Embedding of `runner.rs` `RunnerImpl` (one Elementary Engine); the
source field `end` is a Lean keyword and is embedded as `ended`. -/
structure RunnerImpl where
  bml_type : Option BulletMLType
  nodes : List Nat
  root_nodes : List Nat
  change_dir : Option LinearFunc
  change_spd : Option LinearFunc
  accel_x : Option LinearFunc
  accel_y : Option LinearFunc
  spd : Validatable
  prev_spd : Validatable
  dir : Validatable
  prev_dir : Validatable
  act : Option Nat
  act_turn : Option Nat
  end_turn : Nat
  act_iter : Nat
  ended : Bool
  parameters : List ℚ
  repeat_stack : List RepeatElem
  ref_stack : List StackedRef
deriving DecidableEq, Repr

/-- Embedding of `RunnerImpl::new`. -/
def RunnerImpl.new (state : State) : RunnerImpl :=
  { bml_type := state.bml_type
    nodes := state.nodes
    root_nodes := state.nodes
    change_dir := none
    change_spd := none
    accel_x := none
    accel_y := none
    spd := Validatable.dflt
    prev_spd := Validatable.dflt
    dir := Validatable.dflt
    prev_dir := Validatable.dflt
    act := state.nodes.head?
    act_turn := none
    end_turn := 0
    act_iter := 0
    ended := false
    parameters := state.parameters
    repeat_stack := []
    ref_stack := [] }

/-- Embedding of `RunnerImpl::is_end`. -/
def RunnerImpl.is_end (s : RunnerImpl) : Bool := s.ended

/-- Embedding of `RunnerImpl::is_turn_end`. -/
def is_turn_end (s : RunnerImpl) : Bool :=
  s.is_end || decide (s.act_turn.getD 0 > s.end_turn)

/-- Embedding of `RunnerImpl::do_wait` (panics — `none` — when `act_turn`
is unset, mirroring the source `unwrap`). -/
def do_wait (s : RunnerImpl) (frame : Nat) : Option RunnerImpl :=
  if frame > 0 then
    match s.act_turn with
    | some t => some { s with act_turn := some (t + frame) }
    | none => none
  else
    some s

/-- Embedding of `RunnerImpl::get_number_contents`. -/
def get_number_contents (bml : BulletML) (ctx : Ctx) (s : RunnerImpl)
    (expr : BulletMLExpression) (ri : Nat) : Option (ℚ × Nat) :=
  match expr with
  | .Const v => some (v, ri)
  | .Expr i => evalFExpr s.parameters ctx (bml.expr_slab.getD i (.num 0)) ri

/-- Fuel for the `while direction > 360.` loop of
`RunnerImpl::get_direction`: any bound that provably lets the loop reach its
guard-failure exit works; `|numerator|` is convenient because the kernel can
evaluate it. -/
def subFuel (d : ℚ) : Nat := d.num.natAbs

/-- The `while direction > 360. { direction -= 360. }` loop of
`RunnerImpl::get_direction`, with explicit fuel. -/
def subLoopAux : Nat → ℚ → ℚ
  | 0, d => d
  | n + 1, d => if 360 < d then subLoopAux n (d - 360) else d

/-- Fuel for the `while direction < 0.` loop of
`RunnerImpl::get_direction`. -/
def addFuel (d : ℚ) : Nat := d.num.natAbs

/-- The `while direction < 0. { direction += 360. }` loop of
`RunnerImpl::get_direction`, with explicit fuel. -/
def addLoopAux : Nat → ℚ → ℚ
  | 0, d => d
  | n + 1, d => if d < 0 then addLoopAux n (d + 360) else d

/-- The two sequential normalization loops at the end of
`RunnerImpl::get_direction`. -/
def normalizeDirection (d : ℚ) : ℚ :=
  addLoopAux (addFuel (subLoopAux (subFuel d) d)) (subLoopAux (subFuel d) d)

/-- Embedding of `RunnerImpl::get_direction`. -/
def get_direction (bml : BulletML) (ctx : Ctx) (s : RunnerImpl)
    (dir_type : Option DirectionType) (expr : BulletMLExpression) (ri : Nat) :
    Option (ℚ × RunnerImpl × Nat) := do
  let (direction, ri) ← get_number_contents bml ctx s expr ri
  let (direction, aim) :=
    match dir_type with
    | none => (direction, true)
    | some .Aim => (direction, true)
    | some .Absolute =>
      (if s.bml_type = some BulletMLType.Horizontal then direction - 90 else direction, false)
    | some .Relative => (direction + ctx.bulletDirection, false)
    | some .Sequence =>
      if ¬ s.prev_dir.is_valid then ((0 : ℚ), true)
      else (direction + s.prev_dir.get, false)
  let direction := if aim then direction + ctx.aimDirection else direction
  let direction := normalizeDirection direction
  some (direction, { s with prev_dir := s.prev_dir.set direction }, ri)

/-- Embedding of `RunnerImpl::get_speed`. -/
def get_speed (bml : BulletML) (ctx : Ctx) (s : RunnerImpl)
    (spd_type : Option SpeedType) (expr : BulletMLExpression) (ri : Nat) :
    Option (ℚ × RunnerImpl × Nat) := do
  let (speed, ri) ← get_number_contents bml ctx s expr ri
  let speed :=
    match spd_type with
    | none => speed
    | some .Absolute => speed
    | some .Relative => speed + ctx.bulletSpeed
    | some .Sequence =>
      if ¬ s.prev_spd.is_valid then (1 : ℚ) else speed + s.prev_spd.get
  some (speed, { s with prev_spd := s.prev_spd.set speed }, ri)

/-- Embedding of `RunnerImpl::set_direction`. -/
def set_direction (bml : BulletML) (ctx : Ctx) (s : RunnerImpl) (ri : Nat) :
    Option (RunnerImpl × Nat) :=
  match s.act with
  | none => some (s, ri)
  | some act =>
    match get_first_child_matching bml act BulletMLNode.match_direction with
    | some (dir_type, dir) => do
      let (direction, s, ri) ← get_direction bml ctx s dir_type dir ri
      some ({ s with dir := s.dir.set direction }, ri)
    | none => some (s, ri)

/-- Embedding of `RunnerImpl::set_speed`. -/
def set_speed (bml : BulletML) (ctx : Ctx) (s : RunnerImpl) (ri : Nat) :
    Option (RunnerImpl × Nat) :=
  match s.act with
  | none => some (s, ri)
  | some act =>
    match get_first_child_matching bml act BulletMLNode.match_speed with
    | some (spd_type, spd) => do
      let (speed, s, ri) ← get_speed bml ctx s spd_type spd ri
      some ({ s with spd := s.spd.set speed }, ri)
    | none => some (s, ri)

/-- Embedding of `RunnerImpl::shot_init`. -/
def shot_init (s : RunnerImpl) : RunnerImpl :=
  { s with spd := s.spd.invalidate, dir := s.dir.invalidate }

end BulletMLRs

namespace BulletMLRs

/-- Embedding of `RunnerImpl::run_bullet`.  Returns the updated state, the
advanced random counter and the emitted spawn command. -/
def run_bullet (bml : BulletML) (ctx : Ctx) (s : RunnerImpl) (ri : Nat) :
    Option (RunnerImpl × Nat × List Command) := do
  let (s, ri) ← set_speed bml ctx s ri
  let (s, ri) ← set_direction bml ctx s ri
  let s :=
    if ¬ s.spd.is_valid then
      { s with spd := s.spd.set ctx.defaultSpeed, prev_spd := s.prev_spd.set ctx.defaultSpeed }
    else s
  let s :=
    if ¬ s.dir.is_valid then
      { s with dir := s.dir.set ctx.aimDirection, prev_dir := s.prev_dir.set ctx.aimDirection }
    else s
  let all_actions :=
    match s.act with
    | none => []
    | some act => get_children_ids_matching bml act BulletMLNode.match_any_action
  let cmd :=
    if all_actions.isEmpty then Command.createSimpleBullet s.dir.get s.spd.get
    else Command.createBullet ⟨s.bml_type, all_actions, s.parameters⟩ s.dir.get s.spd.get
  some ({ s with act := none }, ri, [cmd])

/-- Embedding of `RunnerImpl::run_fire`. -/
def run_fire (bml : BulletML) (ctx : Ctx) (s : RunnerImpl) (ri : Nat) :
    Option (RunnerImpl × Nat) := do
  let s := shot_init s
  let (s, ri) ← set_speed bml ctx s ri
  let (s, ri) ← set_direction bml ctx s ri
  let s :=
    match s.act with
    | none => s
    | some act =>
      match get_first_child_id_matching bml act BulletMLNode.match_any_bullet with
      | some b => { s with act := some b }
      | none => s
  some (s, ri)

/-- Embedding of `RunnerImpl::run_action`. -/
def run_action (node : ArenaNode) (s : RunnerImpl) : RunnerImpl :=
  { s with act := node.first_child }

/-- Embedding of `RunnerImpl::run_wait`. -/
def run_wait (bml : BulletML) (ctx : Ctx) (s : RunnerImpl)
    (expr : BulletMLExpression) (ri : Nat) : Option (RunnerImpl × Nat) := do
  let (frame, ri) ← get_number_contents bml ctx s expr ri
  let s ← do_wait s (ratToNat frame)
  some ({ s with act := none }, ri)

/-- Embedding of `RunnerImpl::run_repeat` (the missing loop-body child is
the source `action.unwrap()` panic). -/
def run_repeat (bml : BulletML) (ctx : Ctx) (s : RunnerImpl) (act : Nat) (ri : Nat) :
    Option (RunnerImpl × Nat) :=
  match get_first_child_matching bml act BulletMLNode.match_times with
  | none => some (s, ri)
  | some times => do
    let (t, ri) ← get_number_contents bml ctx s times ri
    let times := ratToNat t
    match get_first_child_id_matching bml act BulletMLNode.match_any_action with
    | none => none
    | some action =>
      some ({ s with
              repeat_stack := ⟨0, times, action⟩ :: s.repeat_stack
              act := some action }, ri)

/-- Evaluation of the `Param` children of a node list, mirroring the loop in
`RunnerImpl::get_parameters`. -/
def get_parameters_aux (bml : BulletML) (ctx : Ctx) (s : RunnerImpl) :
    List Nat → Nat → Option (List ℚ × Nat)
  | [], ri => some ([], ri)
  | c :: rest, ri =>
    match (getNode bml c).get with
    | .Param expr => do
      let (v, ri) ← get_number_contents bml ctx s expr ri
      let (vs, ri) ← get_parameters_aux bml ctx s rest ri
      some (v :: vs, ri)
    | _ => get_parameters_aux bml ctx s rest ri

/-- Embedding of `RunnerImpl::get_parameters` (the source unwraps
`self.act`). -/
def get_parameters (bml : BulletML) (ctx : Ctx) (s : RunnerImpl) (ri : Nat) :
    Option (List ℚ × Nat) :=
  match s.act with
  | none => none
  | some act => get_parameters_aux bml ctx s (childrenList bml act) ri

/-- Embedding of `RunnerImpl::run_ref`: evaluate the fresh parameter list,
push the reference-expansion frame saving the current list, swap in the new
list and jump to the referenced node. -/
def run_ref (bml : BulletML) (ctx : Ctx) (s : RunnerImpl) (act ref_id : Nat) (ri : Nat) :
    Option (RunnerImpl × Nat) := do
  let (new_parameters, ri) ← get_parameters bml ctx s ri
  some ({ s with
          parameters := new_parameters
          ref_stack := ⟨ref_id, act, s.parameters⟩ :: s.ref_stack
          act := some ref_id }, ri)

/-- Embedding of `RunnerImpl::calc_change_direction`. -/
def calc_change_direction (ctx : Ctx) (s : RunnerImpl) (direction : ℚ)
    (term : Nat) (seq : Bool) : RunnerImpl :=
  let act_turn := s.act_turn.getD 0
  let final_turn := act_turn + term
  let dir_first := ctx.bulletDirection
  if seq then
    let f := LinearFunc.new act_turn final_turn dir_first (dir_first + direction * (term : ℚ))
    { s with change_dir := some f }
  else
    let dir_space1 := direction - dir_first
    let dir_space2 := if dir_space1 > 0 then dir_space1 - 360 else dir_space1 + 360
    let dir_space := if |dir_space1| < |dir_space2| then dir_space1 else dir_space2
    let f := LinearFunc.new act_turn final_turn dir_first (dir_first + dir_space)
    { s with change_dir := some f }

/-- Embedding of `RunnerImpl::run_change_direction`. -/
def run_change_direction (bml : BulletML) (ctx : Ctx) (s : RunnerImpl) (ri : Nat) :
    Option (RunnerImpl × Nat) := do
  let (s, ri) ←
    match s.act with
    | none => some (s, ri)
    | some act =>
      match get_first_child_matching bml act BulletMLNode.match_term with
      | none => some (s, ri)
      | some term =>
        match get_first_child_matching bml act BulletMLNode.match_direction with
        | none => some (s, ri)
        | some (dir_type, dir) => do
          let (t, ri) ← get_number_contents bml ctx s term ri
          let term_v := ratToNat t
          if dir_type = some DirectionType.Sequence then do
            let (d, ri) ← get_number_contents bml ctx s dir ri
            some (calc_change_direction ctx s d term_v true, ri)
          else do
            let (d, s, ri) ← get_direction bml ctx s dir_type dir ri
            some (calc_change_direction ctx s d term_v false, ri)
  some ({ s with act := none }, ri)

/-- Embedding of `RunnerImpl::calc_change_speed`. -/
def calc_change_speed (ctx : Ctx) (s : RunnerImpl) (speed : ℚ) (term : Nat) : RunnerImpl :=
  let act_turn := s.act_turn.getD 0
  let final_turn := act_turn + term
  { s with change_spd := some (LinearFunc.new act_turn final_turn ctx.bulletSpeed speed) }

/-- Embedding of `RunnerImpl::run_change_speed`. -/
def run_change_speed (bml : BulletML) (ctx : Ctx) (s : RunnerImpl) (ri : Nat) :
    Option (RunnerImpl × Nat) := do
  let (s, ri) ←
    match s.act with
    | none => some (s, ri)
    | some act =>
      match get_first_child_matching bml act BulletMLNode.match_term with
      | none => some (s, ri)
      | some term =>
        match get_first_child_matching bml act BulletMLNode.match_speed with
        | none => some (s, ri)
        | some (spd_type, spd) => do
          let (t, ri) ← get_number_contents bml ctx s term ri
          let term_v := ratToNat t
          if spd_type = some SpeedType.Sequence then do
            let (v, ri) ← get_number_contents bml ctx s spd ri
            some (calc_change_speed ctx s (v * (term_v : ℚ) + ctx.bulletSpeed) term_v, ri)
          else do
            let (v, s, ri) ← get_speed bml ctx s spd_type spd ri
            some (calc_change_speed ctx s v term_v, ri)
  some ({ s with act := none }, ri)

/-- Embedding of `RunnerImpl::calc_accel_xy`. -/
def calc_accel_xy (s : RunnerImpl) (first_spd value : ℚ) (term : Nat)
    (hv_type : HVType) : Option LinearFunc :=
  let act_turn := s.act_turn.getD 0
  let final_turn := act_turn + term
  let final_spd :=
    match hv_type with
    | .Sequence => first_spd + value * (term : ℚ)
    | .Relative => first_spd + value
    | .Absolute => value
  some (LinearFunc.new act_turn final_turn first_spd final_spd)

/-- Embedding of `RunnerImpl::run_accel`. -/
def run_accel (bml : BulletML) (ctx : Ctx) (s : RunnerImpl) (ri : Nat) :
    Option (RunnerImpl × Nat) := do
  let (s, ri) ←
    match s.act with
    | none => some (s, ri)
    | some act =>
      match get_first_child_matching bml act BulletMLNode.match_term with
      | none => some (s, ri)
      | some term => do
        let (t, ri) ← get_number_contents bml ctx s term ri
        let term_v := ratToNat t
        let horizontal := get_first_child_matching bml act BulletMLNode.match_horizontal
        let vertical := get_first_child_matching bml act BulletMLNode.match_vertical
        if s.bml_type = some BulletMLType.Horizontal then do
          let (s, ri) ←
            match vertical with
            | some (v_type, v) => do
              let (x, ri) ← get_number_contents bml ctx s v ri
              some ({ s with accel_x := calc_accel_xy s ctx.speedX x term_v v_type }, ri)
            | none => some (s, ri)
          match horizontal with
          | some (h_type, h) => do
            let (x, ri) ← get_number_contents bml ctx s h ri
            some ({ s with accel_y := calc_accel_xy s ctx.speedY x term_v h_type }, ri)
          | none => some (s, ri)
        else do
          let (s, ri) ←
            match horizontal with
            | some (h_type, h) => do
              let (x, ri) ← get_number_contents bml ctx s h ri
              some ({ s with accel_x := calc_accel_xy s ctx.speedX x term_v h_type }, ri)
            | none => some (s, ri)
          match vertical with
          | some (v_type, v) => do
            let (x, ri) ← get_number_contents bml ctx s v ri
            some ({ s with accel_y := calc_accel_xy s ctx.speedY x term_v v_type }, ri)
          | none => some (s, ri)
  some ({ s with act := none }, ri)

/-- Embedding of `RunnerImpl::run_vanish`. -/
def run_vanish (s : RunnerImpl) : RunnerImpl × List Command :=
  ({ s with act := none }, [Command.vanish])

end BulletMLRs

namespace BulletMLRs

/-- Control position inside `RunnerImpl::run_sub`: `exec` is the top of the
outer `while let Some(act)` loop, `climb prev` is one iteration of the inner
"what happens next" loop with its current `prev` node. -/
inductive SubPhase where
  | exec
  | climb (prev : Nat)
deriving DecidableEq, Repr

/-- One configuration of the `run_sub` machine: engine state, control
position, random-draw counter and the commands emitted so far (in order). -/
structure Config where
  s : RunnerImpl
  phase : SubPhase
  ri : Nat
  trace : List Command
deriving DecidableEq, Repr

/-- Result of one small step of `run_sub`: the loop exits (`halt`), continues
(`next`), or the source panics (`fail`). -/
inductive StepRes where
  | halt : Config → StepRes
  | next : Config → StepRes
  | fail : StepRes
deriving DecidableEq, Repr

/-- Node dispatch of the outer `run_sub` loop (the `match node.get()` block
in the source); label lookups index the document's label tables and panic
(`fail`) on an absent label. -/
def execStep (bml : BulletML) (ctx : Ctx) (c : Config) (act : Nat) : StepRes :=
  let node := getNode bml act
  match node.get with
  | .Bullet _ =>
    match run_bullet bml ctx c.s c.ri with
    | none => .fail
    | some (s, ri, cmds) => .next ⟨s, .climb act, ri, c.trace ++ cmds⟩
  | .Action _ => .next ⟨run_action node c.s, .climb act, c.ri, c.trace⟩
  | .Fire _ =>
    match run_fire bml ctx c.s c.ri with
    | none => .fail
    | some (s, ri) => .next ⟨s, .climb act, ri, c.trace⟩
  | .ChangeDirection =>
    match run_change_direction bml ctx c.s c.ri with
    | none => .fail
    | some (s, ri) => .next ⟨s, .climb act, ri, c.trace⟩
  | .ChangeSpeed =>
    match run_change_speed bml ctx c.s c.ri with
    | none => .fail
    | some (s, ri) => .next ⟨s, .climb act, ri, c.trace⟩
  | .Accel =>
    match run_accel bml ctx c.s c.ri with
    | none => .fail
    | some (s, ri) => .next ⟨s, .climb act, ri, c.trace⟩
  | .Wait expr =>
    match run_wait bml ctx c.s expr c.ri with
    | none => .fail
    | some (s, ri) => .next ⟨s, .climb act, ri, c.trace⟩
  | .Repeat =>
    match run_repeat bml ctx c.s act c.ri with
    | none => .fail
    | some (s, ri) => .next ⟨s, .climb act, ri, c.trace⟩
  | .BulletRef label =>
    match bml.bullet_refs.lookup label with
    | none => .fail
    | some rid =>
      match run_ref bml ctx c.s act rid c.ri with
      | none => .fail
      | some (s, ri) => .next ⟨s, .climb act, ri, c.trace⟩
  | .ActionRef label =>
    match bml.action_refs.lookup label with
    | none => .fail
    | some rid =>
      match run_ref bml ctx c.s act rid c.ri with
      | none => .fail
      | some (s, ri) => .next ⟨s, .climb act, ri, c.trace⟩
  | .FireRef label =>
    match bml.fire_refs.lookup label with
    | none => .fail
    | some rid =>
      match run_ref bml ctx c.s act rid c.ri with
      | none => .fail
      | some (s, ri) => .next ⟨s, .climb act, ri, c.trace⟩
  | .Vanish =>
    let (s, cmds) := run_vanish c.s
    .next ⟨s, .climb act, c.ri, c.trace ++ cmds⟩
  | _ => .next ⟨c.s, .climb act, c.ri, c.trace⟩

/-- First half of one inner-loop iteration of `RunnerImpl::run_sub`: when
the active node is exhausted, pop a finished reference expansion (restoring
the saved parameter list) and move to the next sibling unless `prev` is a
root cursor.  Returns the updated state and the updated `prev`. -/
def climbPop (bml : BulletML) (s : RunnerImpl) (prev : Nat) : RunnerImpl × Nat :=
  if s.act = none then
    let (s, prev) :=
      match s.ref_stack with
      | st :: rest =>
        if st.ref_id = prev then
          ({ s with ref_stack := rest, parameters := st.prev_parameters }, st.prev)
        else (s, prev)
      | [] => (s, prev)
    let s :=
      if ¬ s.root_nodes.contains prev then
        { s with act := (getNode bml prev).next_sibling }
      else s
    (s, prev)
  else (s, prev)

/-- One iteration of the inner "what happens next" loop of
`RunnerImpl::run_sub`: `climbPop`, then either resume the outer loop, or
climb to the parent, handling an enclosing `Repeat`. -/
def climbStep (bml : BulletML) (c : Config) (prev : Nat) : StepRes :=
  let (s, prev) := climbPop bml c.s prev
  if s.act.isSome || s.root_nodes.contains prev then
    .next ⟨s, .exec, c.ri, c.trace⟩
  else
    match (getNode bml prev).parent with
    | none => .fail
    | some parent =>
      if (getNode bml parent).get = .Repeat then
        match s.repeat_stack with
        | [] => .fail
        | rep :: rest =>
          if rep.iter + 1 < rep.end_count then
            let s := { s with repeat_stack := ⟨rep.iter + 1, rep.end_count, rep.act⟩ :: rest, act := some rep.act }
            .next ⟨s, .exec, c.ri, c.trace⟩
          else
            .next ⟨{ s with repeat_stack := rest }, .climb parent, c.ri, c.trace⟩
      else
        .next ⟨s, .climb parent, c.ri, c.trace⟩

/-- One small step of `RunnerImpl::run_sub`. -/
def subStep (bml : BulletML) (ctx : Ctx) (c : Config) : StepRes :=
  match c.phase with
  | .exec =>
    match c.s.act with
    | none => .halt c
    | some act => if is_turn_end c.s then .halt c else execStep bml ctx c act
  | .climb prev => climbStep bml c prev

/-- Fuel-bounded iteration of `subStep`; `none` is a panic or fuel
exhaustion. -/
def runSubFuel (bml : BulletML) (ctx : Ctx) : Nat → Config → Option Config
  | 0, _ => none
  | n + 1, c =>
    match subStep bml ctx c with
    | .halt c => some c
    | .next c => runSubFuel bml ctx n c
    | .fail => none

/-- One ramp block of `RunnerImpl::changes`: advance one optional ramp at
the current turn, returning the ramp's new value (cleared when terminal)
and the emitted mutation command. -/
def rampStep (now : Nat) (f? : Option LinearFunc) (mk : ℚ → Command) :
    Option LinearFunc × List Command :=
  match f? with
  | some f =>
    if f.is_last now then (none, [mk f.get_last])
    else (some f, [mk (f.get_value now)])
  | none => (none, [])

/-- Embedding of `RunnerImpl::changes`: the four sequential ramp blocks of
the source (direction, speed, x-accel, y-accel), each reading and writing
only its own ramp field. -/
def changes (ctx : Ctx) (s : RunnerImpl) : RunnerImpl × List Command :=
  let now := ctx.turn
  let r1 := rampStep now s.change_dir Command.changeDirection
  let r2 := rampStep now s.change_spd Command.changeSpeed
  let r3 := rampStep now s.accel_x Command.accelX
  let r4 := rampStep now s.accel_y Command.accelY
  ({ s with change_dir := r1.1, change_spd := r2.1, accel_x := r3.1, accel_y := r4.1 },
    r1.2 ++ r2.2 ++ r3.2 ++ r4.2)

/-- Embedding of `RunnerImpl::run` (one frame of one Elementary Engine).
Returns the new state, the advanced random counter, the ramp commands
emitted by `changes` and the commands emitted by the tree walk `run_sub`. -/
def runFrame (bml : BulletML) (ctx : Ctx) (fuel : Nat) (s : RunnerImpl) (ri : Nat) :
    Option (RunnerImpl × Nat × List Command × List Command) :=
  if s.is_end then some (s, ri, [], [])
  else
    let (s, rampCmds) := changes ctx s
    let s := { s with end_turn := ctx.turn }
    match s.act with
    | none =>
      let s :=
        if ¬ is_turn_end s ∧ s.change_dir = none ∧ s.change_spd = none
            ∧ s.accel_x = none ∧ s.accel_y = none then
          { s with ended := true }
        else s
      some (s, ri, rampCmds, [])
    | some _ => do
      let s := { s with act := some (s.nodes.getD s.act_iter 0) }
      let s := if s.act_turn = none then { s with act_turn := some ctx.turn } else s
      let c ← runSubFuel bml ctx fuel ⟨s, .exec, ri, []⟩
      let s := c.s
      let s :=
        match s.act with
        | none =>
          let s := { s with act_iter := s.act_iter + 1 }
          if s.act_iter < s.nodes.length then
            { s with act := some (s.nodes.getD s.act_iter 0) }
          else s
        | some a => { s with nodes := s.nodes.set s.act_iter a }
      some (s, c.ri, rampCmds, c.trace)

/-- Output of one frame: ramp commands, tree-walk commands, and the index
of the root cursor (`act_iter`) that was active when the frame started. -/
structure FrameOut where
  rampCmds : List Command
  subCmds : List Command
  cursor : Nat
deriving DecidableEq, Repr

/-- Drive one engine through a list of frames (one `Ctx` per frame, in
order): the host's per-frame calls to `RunnerImpl::run`. -/
def runFrames (bml : BulletML) (fuel : Nat) :
    RunnerImpl → Nat → List Ctx → Option (RunnerImpl × Nat × List FrameOut)
  | s, ri, [] => some (s, ri, [])
  | s, ri, ctx :: rest => do
    let cur := s.act_iter
    let (s, ri, ramp, sub) ← runFrame bml ctx fuel s ri
    let (s, ri, outs) ← runFrames bml fuel s ri rest
    some (s, ri, ⟨ramp, sub, cur⟩ :: outs)

/-- Flat command trace of a multi-frame run. -/
def framesTrace (outs : List FrameOut) : List Command :=
  (outs.map (fun o => o.rampCmds ++ o.subCmds)).flatten

/-- Embedding of `Runner::new`: one Elementary Engine per document-root
child that `is_top_action` accepts, each with that action as its single
root cursor and an empty parameter list. -/
def Runner.new (bml : BulletML) : List RunnerImpl :=
  ((childrenList bml bml.root).filter (fun c => (getNode bml c).get.is_top_action)).map
    (fun action => RunnerImpl.new ⟨bml.get_type, [action], []⟩)

/-- Embedding of `Runner::new_from_state`. -/
def Runner.new_from_state (state : State) : List RunnerImpl :=
  [RunnerImpl.new state]

/-- Embedding of `Runner::is_end`: the early-return loop over the contained
engines. -/
def Runner.is_end : List RunnerImpl → Bool
  | [] => false
  | r :: rest => if r.is_end then true else Runner.is_end rest

/-- Embedding of `Runner::run`: advance every contained engine by one
frame, in order, threading the host's random stream. -/
def Runner.run (bml : BulletML) (ctx : Ctx) (fuel : Nat) :
    List RunnerImpl → Nat → Option (List RunnerImpl × Nat × List Command)
  | [], ri => some ([], ri, [])
  | r :: rest, ri => do
    let (r, ri, ramp, sub) ← runFrame bml ctx fuel r ri
    let (rest, ri, cmds) ← Runner.run bml ctx fuel rest ri
    some (r :: rest, ri, (ramp ++ sub) ++ cmds)

end BulletMLRs

namespace BulletMLRs

/-- Iteration of `subStep` that follows only `next` transitions (used to
speak about the positions strictly inside a `run_sub` execution). -/
def iterateSub (bml : BulletML) (ctx : Ctx) : Nat → Config → Option Config
  | 0, c => some c
  | n + 1, c =>
    match subStep bml ctx c with
    | .next c' => iterateSub bml ctx n c'
    | _ => none

/-- Run `subStep` transitions until the first configuration whose
reference-expansion stack is back to depth `base` (fuel-bounded): the
moment the expansion whose push raised the stack above `base` has had its
subtree exhausted. -/
def firstReturnAux (bml : BulletML) (ctx : Ctx) (base : Nat) :
    Nat → Config → Option Config
  | 0, _ => none
  | n + 1, c =>
    if c.s.ref_stack.length = base then some c
    else
      match subStep bml ctx c with
      | .next c' => firstReturnAux bml ctx base n c'
      | _ => none

/-- Discriminator for direction-mutation commands. -/
def Command.isChangeDirection : Command → Bool
  | .changeDirection _ => true
  | _ => false

/-- Discriminator for speed-mutation commands. -/
def Command.isChangeSpeed : Command → Bool
  | .changeSpeed _ => true
  | _ => false

/-- Discriminator for x-acceleration commands. -/
def Command.isAccelX : Command → Bool
  | .accelX _ => true
  | _ => false

/-- Discriminator for y-acceleration commands. -/
def Command.isAccelY : Command → Bool
  | .accelY _ => true
  | _ => false

/-- Fixed host inputs used by the concrete runs below (turn `t`): aim and
bullet direction 0, bullet speed 2, default speed 10, rank 1, zero random
stream. -/
def cexCtx (t : Nat) : Ctx :=
  { bulletDirection := 0, aimDirection := 0, bulletSpeed := 2, defaultSpeed := 10
    rank := 1, speedX := 0, speedY := 0, turn := t, rands := fun _ => 0 }

/-- Concrete document `<bulletml><action label="top"><fire><bullet/></fire></action></bulletml>`
(the repository's `test_mini` pattern). -/
def miniDoc : BulletML :=
  { arena :=
      [ ⟨.BulletML none, none, some 1, none⟩
      , ⟨.Action (some "top"), some 0, some 2, none⟩
      , ⟨.Fire none, some 1, some 3, none⟩
      , ⟨.Bullet none, some 2, none, none⟩ ]
    root := 0
    bullet_refs := []
    action_refs := []
    fire_refs := []
    expr_slab := [] }

/-- Concrete document whose top action is `repeat { times := e, action { vanish } }`;
`slab` is the compiled-expression pool `e` may point into. -/
def repDoc (e : BulletMLExpression) (slab : List FExpr) : BulletML :=
  { arena :=
      [ ⟨.BulletML none, none, some 1, none⟩
      , ⟨.Action (some "top"), some 0, some 2, none⟩
      , ⟨.Repeat, some 1, some 3, none⟩
      , ⟨.Times e, some 2, none, some 4⟩
      , ⟨.Action none, some 2, some 5, none⟩
      , ⟨.Vanish, some 4, none, none⟩ ]
    root := 0
    bullet_refs := []
    action_refs := []
    fire_refs := []
    expr_slab := slab }

/-- Concrete document `fire { direction absolute 360, bullet }` under a
"top" action. -/
def dir360Doc : BulletML :=
  { arena :=
      [ ⟨.BulletML none, none, some 1, none⟩
      , ⟨.Action (some "top"), some 0, some 2, none⟩
      , ⟨.Fire none, some 1, some 3, none⟩
      , ⟨.Direction (some .Absolute) (.Const 360), some 2, none, some 4⟩
      , ⟨.Bullet none, some 2, none, none⟩ ]
    root := 0
    bullet_refs := []
    action_refs := []
    fire_refs := []
    expr_slab := [] }

/-- Concrete two-root-cursor instance: first cursor installs a speed ramp
(`changeSpeed speed 5 term 3`), second cursor is a lone `vanish`. -/
def twoCursorDoc : BulletML :=
  { arena :=
      [ ⟨.BulletML none, none, some 1, none⟩
      , ⟨.Action none, some 0, some 3, some 2⟩
      , ⟨.Action none, some 0, some 6, none⟩
      , ⟨.ChangeSpeed, some 1, some 4, none⟩
      , ⟨.Speed none (.Const 5), some 3, none, some 5⟩
      , ⟨.Term (.Const 3), some 3, none, none⟩
      , ⟨.Vanish, some 2, none, none⟩ ]
    root := 0
    bullet_refs := []
    action_refs := []
    fire_refs := []
    expr_slab := [] }

/-- Concrete document with a labeled action and a parameterized reference
to it: `action "top" { actionRef "a" { param 7 } }` plus `action "a" { vanish }`. -/
def refDoc : BulletML :=
  { arena :=
      [ ⟨.BulletML none, none, some 1, none⟩
      , ⟨.Action (some "top"), some 0, some 2, some 4⟩
      , ⟨.ActionRef "a", some 1, some 3, none⟩
      , ⟨.Param (.Const 7), some 2, none, none⟩
      , ⟨.Action (some "a"), some 0, some 5, none⟩
      , ⟨.Vanish, some 4, none, none⟩ ]
    root := 0
    bullet_refs := []
    action_refs := [("a", 4)]
    fire_refs := []
    expr_slab := [] }

/-- Same shape as `refDoc` but the label table lacks the referenced label:
executing the `actionRef` hits the source's `HashMap` indexing panic. -/
def danglingDoc : BulletML :=
  { arena :=
      [ ⟨.BulletML none, none, some 1, none⟩
      , ⟨.Action (some "top"), some 0, some 2, none⟩
      , ⟨.ActionRef "missing", some 1, none, none⟩ ]
    root := 0
    bullet_refs := []
    action_refs := []
    fire_refs := []
    expr_slab := [] }

/-- Concrete document whose top action is `wait($1)` with an empty active
parameter list: evaluating the expression indexes `parameters[0]` of an
empty list (the source's out-of-range parameter panic). -/
def paramDoc : BulletML :=
  { arena :=
      [ ⟨.BulletML none, none, some 1, none⟩
      , ⟨.Action (some "top"), some 0, some 2, none⟩
      , ⟨.Wait (.Expr 0), some 1, none, none⟩ ]
    root := 0
    bullet_refs := []
    action_refs := []
    fire_refs := []
    expr_slab := [.paramRef (.num 1)] }

/-- The initial engine of a document whose single root cursor is node 1
with no parameters (what `Runner::new` builds for a single "top" action). -/
def initEngine (bt : Option BulletMLType) (ps : List ℚ) : RunnerImpl :=
  RunnerImpl.new ⟨bt, [1], ps⟩

end BulletMLRs

namespace BulletMLRs

/-- The result of a concrete four-frame run of `twoCursorDoc` (used to
instantiate the cursor-monotonicity statement on a concrete run). -/
def c3w : RunnerImpl × Nat × List FrameOut :=
  (runFrames twoCursorDoc 100 (RunnerImpl.new ⟨none, [1, 2], []⟩) 0
    ((List.range 4).map cexCtx)).getD (RunnerImpl.new ⟨none, [1, 2], []⟩, 0, [])

/-- Engine state of `refDoc` paused at the `actionRef` node (node 2), with
active parameter list `[5]`. -/
def c4s : RunnerImpl :=
  { RunnerImpl.new ⟨none, [1], [5]⟩ with act := some 2, act_turn := some 0 }

/-- The `run_sub` configuration about to execute the `actionRef` node. -/
def c4c : Config := ⟨c4s, .exec, 0, []⟩

/-- The configuration right after executing the `actionRef` node (the
reference-expansion push). -/
def c4c1 : Config :=
  match subStep refDoc (cexCtx 0) c4c with
  | .next c => c
  | _ => c4c

/-- The reference-expansion frame pushed by the `actionRef`. -/
def c4st : StackedRef := c4c1.s.ref_stack.headD ⟨0, 0, []⟩

/-- The configuration at the first return of the reference-expansion stack
to its pre-expansion depth. -/
def c4c2 : Config :=
  (firstReturnAux refDoc (cexCtx 0) c4c.s.ref_stack.length 20 c4c1).getD c4c

/-- Host inputs whose aim direction is -10 degrees. -/
def aimCtx (t : Nat) : Ctx := { cexCtx t with aimDirection := -10 }

/-- Host inputs whose current bullet direction is 350 degrees. -/
def cd350Ctx (t : Nat) : Ctx := { cexCtx t with bulletDirection := 350 }

/-- The direction ramp installed by a `changeDirection` to absolute 10 over
term 20 when the bullet currently points at 350 (shortest path crosses 360:
the ramp targets 370). -/
def cdState : RunnerImpl :=
  calc_change_direction (cd350Ctx 0) { initEngine none [] with act_turn := some 0 } 10 20 false

/-- The result of evaluating an absolute direction of 360 (vertical frame). -/
def c5res : ℚ × RunnerImpl × Nat :=
  (get_direction miniDoc (cexCtx 0) (initEngine none []) (some .Absolute) (.Const 360) 0).getD
    (0, initEngine none [], 0)

/-- Direction ramp used by the ramp-terminal witness. -/
def c6fd : LinearFunc := LinearFunc.new 0 3 0 90

/-- Speed ramp used by the ramp-terminal witness. -/
def c6fs : LinearFunc := LinearFunc.new 0 3 1 5

/-- X-acceleration ramp used by the ramp-terminal witness. -/
def c6fx : LinearFunc := LinearFunc.new 0 3 0 2

/-- Y-acceleration ramp used by the ramp-terminal witness. -/
def c6fy : LinearFunc := LinearFunc.new 0 3 0 4

/-- Engine state with all four ramps live. -/
def c6s : RunnerImpl :=
  { initEngine none [] with change_dir := some c6fd, change_spd := some c6fs, accel_x := some c6fx, accel_y := some c6fy }

/-- Concrete document whose top action is `repeat { times 2 }` with no
loop-body child: `run_repeat` unwraps the missing action child. -/
def malformedRepDoc : BulletML :=
  { arena :=
      [ ⟨.BulletML none, none, some 1, none⟩
      , ⟨.Action (some "top"), some 0, some 2, none⟩
      , ⟨.Repeat, some 1, some 3, none⟩
      , ⟨.Times (.Const 2), some 2, none, none⟩ ]
    root := 0
    bullet_refs := []
    action_refs := []
    fire_refs := []
    expr_slab := [] }

/-- Engine state of `repDoc` at the start of its first frame's tree walk:
active node is the top action (node 1), `act_turn` and `end_turn` both `t`. -/
def c1S (bt : Option BulletMLType) (ps : List ℚ) (t : Nat) : RunnerImpl :=
  { bml_type := bt, nodes := [1], root_nodes := [1], change_dir := none, change_spd := none, accel_x := none, accel_y := none, spd := Validatable.dflt, prev_spd := Validatable.dflt, dir := Validatable.dflt, prev_dir := Validatable.dflt, act := some 1, act_turn := some t, end_turn := t, act_iter := 0, ended := false, parameters := ps, repeat_stack := [], ref_stack := [] }

/-- Engine state of `repDoc` at the top of the repeat loop with iteration
counter `i` and target count `N` (active node is the loop body, node 4). -/
def c1Mid (bt : Option BulletMLType) (ps : List ℚ) (t : Nat) (i N : Nat) : RunnerImpl :=
  { c1S bt ps t with act := some 4, repeat_stack := [⟨i, N, 4⟩] }

/-- Engine state of `repDoc` after the tree walk is exhausted. -/
def c1End (bt : Option BulletMLType) (ps : List ℚ) (t : Nat) : RunnerImpl :=
  { c1S bt ps t with act := none }

/-- Engine state of `repDoc` with the cursor on the `Repeat` node (node 2). -/
def c1SA (bt : Option BulletMLType) (ps : List ℚ) (t : Nat) : RunnerImpl :=
  { c1S bt ps t with act := some 2 }

lemma subLoopAux_le : ∀ (n : Nat) (d : ℚ), d ≤ 360 + 360 * n → subLoopAux n d ≤ 360
  | 0, d, h => by
    rw [subLoopAux]
    push_cast at h
    linarith
  | n + 1, d, h => by
    by_cases hd : 360 < d
    · rw [subLoopAux, if_pos hd]
      exact subLoopAux_le n (d - 360) (by push_cast at h ⊢; linarith)
    · rw [subLoopAux, if_neg hd]
      linarith [not_lt.mp hd]

lemma rat_abs_le_natAbs (d : ℚ) : |d| ≤ (d.num.natAbs : ℚ) := by
  have hden : (0 : ℚ) < (d.den : ℚ) := by exact_mod_cast d.den_pos
  have h1 : |d| = |(d.num : ℚ)| / (d.den : ℚ) := by
    rw [← Rat.num_div_den d, abs_div, abs_of_pos hden]
    rw [Rat.num_div_den d]
  have h2 : |(d.num : ℚ)| / (d.den : ℚ) ≤ |(d.num : ℚ)| := by
    apply div_le_self (abs_nonneg _)
    exact_mod_cast d.den_pos
  have h3 : |(d.num : ℚ)| = (d.num.natAbs : ℚ) := by
    rw [Int.cast_natAbs, Int.cast_abs]
  rw [h1, ← h3]
  exact h2

lemma subFuel_le (d : ℚ) : d ≤ 360 + 360 * (subFuel d : ℚ) := by
  have h1 : d ≤ (d.num.natAbs : ℚ) := le_trans (le_abs_self d) (rat_abs_le_natAbs d)
  have h2 : (0 : ℚ) ≤ (d.num.natAbs : ℚ) := Nat.cast_nonneg _
  rw [subFuel]
  linarith

lemma addLoopAux_le : ∀ (n : Nat) (d : ℚ), d ≤ 360 → addLoopAux n d ≤ 360
  | 0, d, h => by rw [addLoopAux]; exact h
  | n + 1, d, h => by
    by_cases hd : d < 0
    · rw [addLoopAux, if_pos hd]
      exact addLoopAux_le n (d + 360) (by linarith)
    · rw [addLoopAux, if_neg hd]
      exact h

lemma addLoopAux_nonneg : ∀ (n : Nat) (d : ℚ), -(360 * n) ≤ d → 0 ≤ addLoopAux n d
  | 0, d, h => by
    rw [addLoopAux]
    push_cast at h
    linarith
  | n + 1, d, h => by
    by_cases hd : d < 0
    · rw [addLoopAux, if_pos hd]
      exact addLoopAux_nonneg n (d + 360) (by push_cast at h ⊢; linarith)
    · rw [addLoopAux, if_neg hd]
      linarith [not_lt.mp hd]

lemma addFuel_le (d : ℚ) : -(360 * (addFuel d : ℚ)) ≤ d := by
  have h1 : -d ≤ (d.num.natAbs : ℚ) := le_trans (neg_le_abs d) (rat_abs_le_natAbs d)
  have h2 : (0 : ℚ) ≤ (d.num.natAbs : ℚ) := Nat.cast_nonneg _
  rw [addFuel]
  linarith

lemma normalizeDirection_nonneg (d : ℚ) : 0 ≤ normalizeDirection d :=
  addLoopAux_nonneg _ _ (addFuel_le _)

lemma normalizeDirection_le (d : ℚ) : normalizeDirection d ≤ 360 :=
  addLoopAux_le _ _ (subLoopAux_le _ _ (subFuel_le d))

lemma subLoopAux_id (n : Nat) (d : ℚ) (h : ¬ 360 < d) : subLoopAux n d = d := by
  cases n <;> simp [subLoopAux, h]

lemma addLoopAux_id (n : Nat) (d : ℚ) (h : ¬ d < 0) : addLoopAux n d = d := by
  cases n <;> simp [addLoopAux, h]

lemma normalizeDirection_id (d : ℚ) (h0 : 0 ≤ d) (h1 : d < 360) :
    normalizeDirection d = d := by
  rw [normalizeDirection, subLoopAux_id _ _ (by linarith), addLoopAux_id _ _ (by linarith)]

end BulletMLRs

namespace BulletMLRs

lemma get_direction_shape (bml : BulletML) (ctx : Ctx) (s : RunnerImpl)
    (ty : Option DirectionType) (e : BulletMLExpression) (ri : Nat)
    (d : ℚ) (s' : RunnerImpl) (ri' : Nat)
    (h : get_direction bml ctx s ty e ri = some (d, s', ri')) :
    (∃ x, d = normalizeDirection x) ∧ s' = { s with prev_dir := ⟨d, true⟩ } := by
  simp only [get_direction, Option.bind_eq_bind, Option.bind_eq_some, Option.some.injEq] at h
  obtain ⟨⟨v, ri₁⟩, hv, h⟩ := h
  repeat' split at h
  all_goals
    simp only [Option.some.injEq, Prod.mk.injEq] at h
    obtain ⟨hd, hs, hri⟩ := h
    refine ⟨⟨_, hd.symm⟩, ?_⟩
    rw [← hs, hd]
    rfl

end BulletMLRs

namespace BulletMLRs

lemma get_speed_shape (bml : BulletML) (ctx : Ctx) (s : RunnerImpl)
    (ty : Option SpeedType) (e : BulletMLExpression) (ri : Nat)
    (w : ℚ) (s' : RunnerImpl) (ri' : Nat)
    (h : get_speed bml ctx s ty e ri = some (w, s', ri')) :
    s' = { s with prev_spd := ⟨w, true⟩ } := by
  simp only [get_speed, Option.bind_eq_bind, Option.bind_eq_some, Option.some.injEq] at h
  obtain ⟨⟨v, ri₁⟩, hv, h⟩ := h
  repeat' split at h
  all_goals
    simp only [Option.some.injEq, Prod.mk.injEq] at h
    obtain ⟨hd, hs, hri⟩ := h
    rw [← hs, hd]
    rfl

lemma set_direction_shape (bml : BulletML) (ctx : Ctx) (s : RunnerImpl) (ri : Nat)
    (s' : RunnerImpl) (ri' : Nat)
    (h : set_direction bml ctx s ri = some (s', ri')) :
    ∃ a b, s' = { s with dir := a, prev_dir := b } := by
  simp only [set_direction] at h
  repeat' split at h
  · simp only [Option.some.injEq, Prod.mk.injEq] at h
    exact ⟨s.dir, s.prev_dir, h.1.symm⟩
  · simp only [Option.bind_eq_bind, Option.bind_eq_some] at h
    obtain ⟨⟨d, s₁, ri₁⟩, hd, h2⟩ := h
    simp only [Option.some.injEq, Prod.mk.injEq] at h2
    have := get_direction_shape bml ctx s _ _ ri d s₁ ri₁ hd
    rw [this.2] at h2
    exact ⟨_, _, h2.1.symm⟩
  · simp only [Option.some.injEq, Prod.mk.injEq] at h
    exact ⟨s.dir, s.prev_dir, h.1.symm⟩

lemma set_speed_shape (bml : BulletML) (ctx : Ctx) (s : RunnerImpl) (ri : Nat)
    (s' : RunnerImpl) (ri' : Nat)
    (h : set_speed bml ctx s ri = some (s', ri')) :
    ∃ a b, s' = { s with spd := a, prev_spd := b } := by
  simp only [set_speed] at h
  repeat' split at h
  · simp only [Option.some.injEq, Prod.mk.injEq] at h
    exact ⟨s.spd, s.prev_spd, h.1.symm⟩
  · simp only [Option.bind_eq_bind, Option.bind_eq_some] at h
    obtain ⟨⟨w, s₁, ri₁⟩, hw, h2⟩ := h
    simp only [Option.some.injEq, Prod.mk.injEq] at h2
    have := get_speed_shape bml ctx s _ _ ri w s₁ ri₁ hw
    rw [this] at h2
    exact ⟨_, _, h2.1.symm⟩
  · simp only [Option.some.injEq, Prod.mk.injEq] at h
    exact ⟨s.spd, s.prev_spd, h.1.symm⟩

end BulletMLRs

namespace BulletMLRs

lemma do_wait_shape (s : RunnerImpl) (f : Nat) (s' : RunnerImpl)
    (h : do_wait s f = some s') : ∃ t, s' = { s with act_turn := t } := by
  rw [do_wait] at h
  repeat' split at h
  all_goals simp only [Option.some.injEq, reduceCtorEq] at h
  · exact ⟨_, h.symm⟩
  · exact ⟨s.act_turn, h.symm⟩

lemma run_bullet_shape (bml : BulletML) (ctx : Ctx) (s : RunnerImpl) (ri : Nat)
    (s' : RunnerImpl) (ri' : Nat) (cmds : List Command)
    (h : run_bullet bml ctx s ri = some (s', ri', cmds)) :
    ∃ a b c d, s' = { s with spd := a, prev_spd := b, dir := c, prev_dir := d, act := none } := by
  simp only [run_bullet, Option.bind_eq_bind, Option.bind_eq_some] at h
  obtain ⟨⟨s₁, ri₁⟩, h1, h⟩ := h
  obtain ⟨a₁, b₁, rfl⟩ := set_speed_shape _ _ _ _ _ _ h1
  obtain ⟨⟨s₂, ri₂⟩, h2, h⟩ := h
  obtain ⟨c₁, d₁, rfl⟩ := set_direction_shape _ _ _ _ _ _ h2
  repeat' split at h
  all_goals
    simp only [Option.some.injEq, Prod.mk.injEq] at h
    exact ⟨_, _, _, _, h.1.symm⟩

lemma run_fire_shape (bml : BulletML) (ctx : Ctx) (s : RunnerImpl) (ri : Nat)
    (s' : RunnerImpl) (ri' : Nat)
    (h : run_fire bml ctx s ri = some (s', ri')) :
    ∃ a b c d oa, s' = { s with spd := a, prev_spd := b, dir := c, prev_dir := d, act := oa } := by
  simp only [run_fire, shot_init, Option.bind_eq_bind, Option.bind_eq_some] at h
  obtain ⟨⟨s₁, ri₁⟩, h1, h⟩ := h
  obtain ⟨a₁, b₁, rfl⟩ := set_speed_shape _ _ _ _ _ _ h1
  obtain ⟨⟨s₂, ri₂⟩, h2, h⟩ := h
  obtain ⟨c₁, d₁, rfl⟩ := set_direction_shape _ _ _ _ _ _ h2
  repeat' split at h
  all_goals
    simp only [Option.some.injEq, Prod.mk.injEq] at h
    exact ⟨_, _, _, _, _, h.1.symm⟩

lemma run_wait_shape (bml : BulletML) (ctx : Ctx) (s : RunnerImpl)
    (e : BulletMLExpression) (ri : Nat) (s' : RunnerImpl) (ri' : Nat)
    (h : run_wait bml ctx s e ri = some (s', ri')) :
    ∃ t, s' = { s with act_turn := t, act := none } := by
  simp only [run_wait, Option.bind_eq_bind, Option.bind_eq_some] at h
  obtain ⟨⟨v, ri₁⟩, hv, h⟩ := h
  obtain ⟨s₁, hw, h⟩ := h
  obtain ⟨t, rfl⟩ := do_wait_shape _ _ _ hw
  simp only [Option.some.injEq, Prod.mk.injEq] at h
  exact ⟨t, h.1.symm⟩

lemma run_repeat_shape (bml : BulletML) (ctx : Ctx) (s : RunnerImpl)
    (act : Nat) (ri : Nat) (s' : RunnerImpl) (ri' : Nat)
    (h : run_repeat bml ctx s act ri = some (s', ri')) :
    ∃ rs oa, s' = { s with repeat_stack := rs, act := oa } := by
  rw [run_repeat] at h
  cases hT : get_first_child_matching bml act BulletMLNode.match_times with
  | none =>
    rw [hT] at h
    simp only [Option.some.injEq, Prod.mk.injEq] at h
    exact ⟨s.repeat_stack, s.act, h.1.symm⟩
  | some times =>
    rw [hT] at h
    simp only [Option.bind_eq_bind, Option.bind_eq_some] at h
    obtain ⟨⟨v, ri₁⟩, hv, h⟩ := h
    cases hA : get_first_child_id_matching bml act BulletMLNode.match_any_action with
    | none => rw [hA] at h; exact absurd h (by simp)
    | some a =>
      rw [hA] at h
      simp only [Option.some.injEq, Prod.mk.injEq] at h
      exact ⟨_, _, h.1.symm⟩

lemma run_ref_shape (bml : BulletML) (ctx : Ctx) (s : RunnerImpl)
    (act rid : Nat) (ri : Nat) (s' : RunnerImpl) (ri' : Nat)
    (h : run_ref bml ctx s act rid ri = some (s', ri')) :
    ∃ np, s' = { s with parameters := np, ref_stack := ⟨rid, act, s.parameters⟩ :: s.ref_stack, act := some rid } := by
  simp only [run_ref, Option.bind_eq_bind, Option.bind_eq_some] at h
  obtain ⟨⟨np, ri₁⟩, hp, h⟩ := h
  simp only [Option.some.injEq, Prod.mk.injEq] at h
  exact ⟨np, h.1.symm⟩

lemma calc_change_direction_shape (ctx : Ctx) (s : RunnerImpl) (d : ℚ)
    (t : Nat) (seq : Bool) :
    ∃ c, calc_change_direction ctx s d t seq = { s with change_dir := c } := by
  rw [calc_change_direction]
  repeat' split
  all_goals exact ⟨_, rfl⟩

lemma calc_change_speed_shape (ctx : Ctx) (s : RunnerImpl) (v : ℚ) (t : Nat) :
    ∃ c, calc_change_speed ctx s v t = { s with change_spd := c } := by
  rw [calc_change_speed]
  exact ⟨_, rfl⟩

lemma run_change_direction_pres (bml : BulletML) (ctx : Ctx) (s : RunnerImpl)
    (ri : Nat) (s' : RunnerImpl) (ri' : Nat)
    (h : run_change_direction bml ctx s ri = some (s', ri')) :
    ∃ p c, s' = { s with prev_dir := p, change_dir := c, act := none } := by
  rw [run_change_direction] at h
  repeat' split at h
  all_goals simp only [Option.bind_eq_bind, Option.bind_eq_some, Option.some.injEq,
    Prod.mk.injEq] at h
  · obtain ⟨a, rfl, hs, hri⟩ := h
    exact ⟨s.prev_dir, s.change_dir, hs.symm⟩
  · obtain ⟨a, rfl, hs, hri⟩ := h
    exact ⟨s.prev_dir, s.change_dir, hs.symm⟩
  · obtain ⟨a, rfl, hs, hri⟩ := h
    exact ⟨s.prev_dir, s.change_dir, hs.symm⟩
  · obtain ⟨a, ha, b, hb, y, rfl, hs, hri⟩ := h
    obtain ⟨c, hc⟩ := calc_change_direction_shape ctx s b.1 (ratToNat a.1) true
    rw [hc] at hs
    exact ⟨s.prev_dir, c, hs.symm⟩
  · obtain ⟨a, ha, ⟨d, s₂, ri₃⟩, hb, y, rfl, hs, hri⟩ := h
    obtain ⟨hx, rfl⟩ := get_direction_shape _ _ _ _ _ _ _ _ _ hb
    obtain ⟨c, hc⟩ := calc_change_direction_shape ctx _ d (ratToNat a.1) false
    rw [hc] at hs
    exact ⟨_, c, hs.symm⟩

lemma run_change_speed_pres (bml : BulletML) (ctx : Ctx) (s : RunnerImpl)
    (ri : Nat) (s' : RunnerImpl) (ri' : Nat)
    (h : run_change_speed bml ctx s ri = some (s', ri')) :
    ∃ p c, s' = { s with prev_spd := p, change_spd := c, act := none } := by
  rw [run_change_speed] at h
  repeat' split at h
  all_goals simp only [Option.bind_eq_bind, Option.bind_eq_some, Option.some.injEq,
    Prod.mk.injEq] at h
  · obtain ⟨a, rfl, hs, hri⟩ := h
    exact ⟨s.prev_spd, s.change_spd, hs.symm⟩
  · obtain ⟨a, rfl, hs, hri⟩ := h
    exact ⟨s.prev_spd, s.change_spd, hs.symm⟩
  · obtain ⟨a, rfl, hs, hri⟩ := h
    exact ⟨s.prev_spd, s.change_spd, hs.symm⟩
  · obtain ⟨a, ha, b, hb, y, rfl, hs, hri⟩ := h
    obtain ⟨c, hc⟩ := calc_change_speed_shape ctx s (b.1 * (ratToNat a.1 : ℚ) + ctx.bulletSpeed) (ratToNat a.1)
    rw [hc] at hs
    exact ⟨s.prev_spd, c, hs.symm⟩
  · obtain ⟨a, ha, ⟨w, s₂, ri₃⟩, hb, y, rfl, hs, hri⟩ := h
    have hsh := get_speed_shape _ _ _ _ _ _ _ _ _ hb
    subst hsh
    obtain ⟨c, hc⟩ := calc_change_speed_shape ctx _ w (ratToNat a.1)
    rw [hc] at hs
    exact ⟨_, c, hs.symm⟩

lemma run_accel_pres (bml : BulletML) (ctx : Ctx) (s : RunnerImpl)
    (ri : Nat) (s' : RunnerImpl) (ri' : Nat)
    (h : run_accel bml ctx s ri = some (s', ri')) :
    ∃ x y, s' = { s with accel_x := x, accel_y := y, act := none } := by
  rw [run_accel] at h
  iterate 3
    (try repeat' split at h)
    all_goals try simp only [Option.bind_eq_bind, Option.bind_eq_some, Option.some.injEq,
      Prod.mk.injEq] at h
    all_goals
      repeat
        first
        | (obtain ⟨hs, hri⟩ := h
           exact ⟨_, _, hs.symm⟩)
        | (obtain ⟨a, rfl, h⟩ := h)
        | (obtain ⟨a, ha, h⟩ := h)

end BulletMLRs

namespace BulletMLRs

/-- Stack discipline of one `run_sub` step: the reference-expansion stack is
preserved, pushed (saving exactly the active parameter list), or popped
(restoring exactly the saved parameter list); the active root-cursor index
is never touched. -/
def StackStep (s s' : RunnerImpl) : Prop :=
  (s'.ref_stack = s.ref_stack ∧ s'.parameters = s.parameters) ∨
  (∃ st, s'.ref_stack = st :: s.ref_stack ∧ st.prev_parameters = s.parameters) ∨
  (∃ st, s.ref_stack = st :: s'.ref_stack ∧ s'.parameters = st.prev_parameters)

lemma execStep_inv (bml : BulletML) (ctx : Ctx) (c : Config) (act : Nat)
    (c' : Config) (h : execStep bml ctx c act = .next c') :
    c'.s.act_iter = c.s.act_iter ∧ StackStep c.s c'.s := by
  rw [execStep] at h
  repeat' split at h
  all_goals try (exact StepRes.noConfusion h)
  all_goals simp only [StepRes.next.injEq] at h
  all_goals subst h
  all_goals try exact ⟨rfl, Or.inl ⟨rfl, rfl⟩⟩
  all_goals rename_i heq
  all_goals
    first
    | (obtain ⟨a, b, c₂, d, rfl⟩ := run_bullet_shape _ _ _ _ _ _ _ heq
       exact ⟨rfl, Or.inl ⟨rfl, rfl⟩⟩)
    | (obtain ⟨a, b, c₂, d, oa, rfl⟩ := run_fire_shape _ _ _ _ _ _ heq
       exact ⟨rfl, Or.inl ⟨rfl, rfl⟩⟩)
    | (obtain ⟨p, c₂, rfl⟩ := run_change_direction_pres _ _ _ _ _ _ heq
       exact ⟨rfl, Or.inl ⟨rfl, rfl⟩⟩)
    | (obtain ⟨p, c₂, rfl⟩ := run_change_speed_pres _ _ _ _ _ _ heq
       exact ⟨rfl, Or.inl ⟨rfl, rfl⟩⟩)
    | (obtain ⟨x, y, rfl⟩ := run_accel_pres _ _ _ _ _ _ heq
       exact ⟨rfl, Or.inl ⟨rfl, rfl⟩⟩)
    | (obtain ⟨t, rfl⟩ := run_wait_shape _ _ _ _ _ _ _ heq
       exact ⟨rfl, Or.inl ⟨rfl, rfl⟩⟩)
    | (obtain ⟨rs, oa, rfl⟩ := run_repeat_shape _ _ _ _ _ _ _ heq
       exact ⟨rfl, Or.inl ⟨rfl, rfl⟩⟩)
    | (obtain ⟨np, rfl⟩ := run_ref_shape _ _ _ _ _ _ _ _ heq
       exact ⟨rfl, Or.inr (Or.inl ⟨_, rfl, rfl⟩)⟩)
    | (rw [run_vanish] at heq
       simp only [Prod.mk.injEq] at heq
       obtain ⟨hs, hc⟩ := heq
       subst hs
       exact ⟨rfl, Or.inl ⟨rfl, rfl⟩⟩)

lemma climbPop_inv (bml : BulletML) (s : RunnerImpl) (prev : Nat) :
    (climbPop bml s prev).1.act_iter = s.act_iter ∧ StackStep s (climbPop bml s prev).1 := by
  rw [climbPop]
  by_cases hact : s.act = none
  · rw [if_pos hact]
    cases hrs : s.ref_stack with
    | nil =>
      dsimp only
      split
      · exact ⟨rfl, Or.inl ⟨rfl, rfl⟩⟩
      · exact ⟨rfl, Or.inl ⟨rfl, rfl⟩⟩
    | cons st rest =>
      dsimp only
      by_cases hid : st.ref_id = prev
      · rw [if_pos hid]
        dsimp only
        split
        · exact ⟨rfl, Or.inr (Or.inr ⟨st, by rw [hrs], rfl⟩)⟩
        · exact ⟨rfl, Or.inr (Or.inr ⟨st, by rw [hrs], rfl⟩)⟩
      · rw [if_neg hid]
        dsimp only
        split
        · exact ⟨rfl, Or.inl ⟨rfl, rfl⟩⟩
        · exact ⟨rfl, Or.inl ⟨rfl, rfl⟩⟩
  · rw [if_neg hact]
    exact ⟨rfl, Or.inl ⟨rfl, rfl⟩⟩

lemma climbStep_inv (bml : BulletML) (c : Config) (prev : Nat)
    (c' : Config) (h : climbStep bml c prev = .next c') :
    c'.s.act_iter = c.s.act_iter ∧ StackStep c.s c'.s := by
  rw [climbStep] at h
  obtain ⟨hai, hss⟩ := climbPop_inv bml c.s prev
  rcases hcp : climbPop bml c.s prev with ⟨s₁, p₁⟩
  rw [hcp] at h hai hss
  dsimp only at h hai hss
  repeat' split at h
  all_goals first
    | exact StepRes.noConfusion h
    | (simp only [StepRes.next.injEq] at h
       subst h
       exact ⟨hai, hss⟩)

lemma subStep_next_inv (bml : BulletML) (ctx : Ctx) (c c' : Config)
    (h : subStep bml ctx c = .next c') :
    c'.s.act_iter = c.s.act_iter ∧ StackStep c.s c'.s := by
  rw [subStep] at h
  repeat' split at h
  all_goals try (exact StepRes.noConfusion h)
  · exact execStep_inv bml ctx c _ c' h
  · exact climbStep_inv bml c _ c' h

lemma execStep_ne_halt (bml : BulletML) (ctx : Ctx) (c : Config) (act : Nat)
    (c' : Config) : execStep bml ctx c act ≠ .halt c' := by
  rw [execStep]
  repeat' split
  all_goals intro hcontra
  all_goals exact StepRes.noConfusion hcontra

lemma climbStep_ne_halt (bml : BulletML) (c : Config) (prev : Nat)
    (c' : Config) : climbStep bml c prev ≠ .halt c' := by
  rw [climbStep]
  repeat' split
  all_goals intro hcontra
  all_goals exact StepRes.noConfusion hcontra

lemma subStep_halt_eq (bml : BulletML) (ctx : Ctx) (c c' : Config)
    (h : subStep bml ctx c = .halt c') : c' = c := by
  rw [subStep] at h
  repeat' split at h
  all_goals first
    | (simp only [StepRes.halt.injEq] at h; exact h.symm)
    | (exact absurd h (execStep_ne_halt bml ctx c _ c'))
    | (exact absurd h (climbStep_ne_halt bml c _ c'))

lemma firstReturnAux_spec (bml : BulletML) (ctx : Ctx) (base : List StackedRef) :
    ∀ (fuel : Nat) (c c₂ : Config) (e : List StackedRef) (st : StackedRef),
    c.s.ref_stack = e ++ base → e ≠ [] → e.getLast? = some st →
    firstReturnAux bml ctx base.length fuel c = some c₂ →
    c₂.s.parameters = st.prev_parameters ∧ c₂.s.ref_stack = base := by
  intro fuel
  induction fuel with
  | zero =>
    intro c c₂ e st h1 h2 h3 h4
    rw [firstReturnAux] at h4
    exact absurd h4 (by simp)
  | succ m ih =>
    intro c c₂ e st h1 h2 h3 h4
    rw [firstReturnAux] at h4
    have hlenpos : 0 < e.length := List.length_pos.mpr h2
    have hne : ¬ (c.s.ref_stack.length = base.length) := by
      rw [h1, List.length_append]
      omega
    rw [if_neg hne] at h4
    cases hstep : subStep bml ctx c with
    | fail => rw [hstep] at h4; exact absurd h4 (by simp)
    | halt c₁ => rw [hstep] at h4; exact absurd h4 (by simp)
    | next c₁ =>
      rw [hstep] at h4
      obtain ⟨hai, hss⟩ := subStep_next_inv bml ctx c c₁ hstep
      rcases hss with ⟨hre, hpe⟩ | ⟨st', hpush, hprev⟩ | ⟨st', hpop, hparam⟩
      · exact ih c₁ c₂ e st (by rw [hre, h1]) h2 h3 h4
      · obtain ⟨a, e', rfl⟩ := List.exists_cons_of_ne_nil h2
        refine ih c₁ c₂ (st' :: a :: e') st ?_ (by simp) ?_ h4
        · rw [hpush, h1]
          rfl
        · rw [List.getLast?_cons_cons]
          exact h3
      · obtain ⟨a, e', rfl⟩ := List.exists_cons_of_ne_nil h2
        rw [h1] at hpop
        simp only [List.cons_append, List.cons.injEq] at hpop
        obtain ⟨rfl, hc1⟩ := hpop
        cases e' with
        | nil =>
          simp only [List.getLast?_singleton, Option.some.injEq] at h3
          subst h3
          simp only [List.nil_append] at hc1
          cases m with
          | zero => simp [firstReturnAux] at h4
          | succ k =>
            simp only [firstReturnAux] at h4
            rw [if_pos (by rw [← hc1])] at h4
            simp only [Option.some.injEq] at h4
            subst h4
            exact ⟨hparam, hc1.symm⟩
        | cons b bs =>
          refine ih c₁ c₂ (b :: bs) st ?_ (by simp) ?_ h4
          · rw [← hc1]
          · rw [List.getLast?_cons_cons] at h3
            exact h3

/-- C4: after a reference expansion (the step that pushes a
reference-expansion frame), at the first moment the expansion stack is back
to its pre-expansion depth — the expansion's subtree is exhausted — the
active parameter list is exactly (bit-for-bit, here: as a value of
`List ℚ`) the list that was active immediately before the expansion began,
and the stack itself is exactly the pre-expansion stack (strict LIFO).
This holds for every document, host, engine state and nesting depth. -/
theorem c4_param_restore_after_expansion (bml : BulletML) (ctx : Ctx)
    (c c₁ : Config) (st : StackedRef) (fuel : Nat) (c₂ : Config)
    (hstep : subStep bml ctx c = .next c₁)
    (hpush : c₁.s.ref_stack = st :: c.s.ref_stack)
    (hret : firstReturnAux bml ctx c.s.ref_stack.length fuel c₁ = some c₂) :
    c₂.s.parameters = c.s.parameters ∧ c₂.s.ref_stack = c.s.ref_stack := by
  obtain ⟨hai, hss⟩ := subStep_next_inv bml ctx c c₁ hstep
  have hstp : st.prev_parameters = c.s.parameters := by
    rcases hss with ⟨hre, hpe⟩ | ⟨st', hpush', hprev⟩ | ⟨st', hpop, hparam⟩
    · exfalso
      have hl : (st :: c.s.ref_stack).length = c.s.ref_stack.length := by
        rw [← hpush, hre]
      simp at hl
    · rw [hpush] at hpush'
      simp only [List.cons.injEq] at hpush'
      rw [hpush'.1]
      exact hprev
    · exfalso
      rw [hpush] at hpop
      have hl := congrArg List.length hpop
      simp only [List.length_cons] at hl
      omega
  have hmain := firstReturnAux_spec bml ctx c.s.ref_stack fuel c₁ c₂ [st] st
    (by rw [hpush]; rfl) (by simp) (by simp) hret
  exact ⟨hstp ▸ hmain.1, hmain.2⟩

/-- Witness for C4 on `refDoc`: executing the `actionRef "a"` node with
active parameters `[5]` pushes a frame; six steps later the stack first
returns to depth 0, and the parameter list is `[5]` again. -/
theorem c4_param_restore_witness :
    subStep refDoc (cexCtx 0) c4c = .next c4c1 ∧
    c4c1.s.ref_stack = c4st :: c4c.s.ref_stack ∧
    firstReturnAux refDoc (cexCtx 0) c4c.s.ref_stack.length 20 c4c1 = some c4c2 ∧
    c4c2.s.parameters = c4c.s.parameters ∧ c4c2.s.ref_stack = c4c.s.ref_stack := by
  refine ⟨by decide, by decide, by decide, ?_⟩
  exact c4_param_restore_after_expansion refDoc (cexCtx 0) c4c c4c1 c4st 20 c4c2
    (by decide) (by decide) (by decide)

end BulletMLRs

namespace BulletMLRs

/-- C5 (amended): every direction value computed by the engine's direction
evaluation `get_direction` lies in the closed interval [0, 360] — the
normalization loop uses a strict `> 360` guard, so 360 itself is attainable;
directions taken verbatim from the host (the default-aim fallback of
`run_bullet`) and change-direction ramp mutation values are not normalized
(see the counterexample). -/
theorem c5_get_direction_in_closed_interval (bml : BulletML) (ctx : Ctx)
    (s : RunnerImpl) (ty : Option DirectionType) (e : BulletMLExpression)
    (ri : Nat) (d : ℚ) (s' : RunnerImpl) (ri' : Nat)
    (h : get_direction bml ctx s ty e ri = some (d, s', ri')) :
    0 ≤ d ∧ d ≤ 360 := by
  obtain ⟨⟨x, rfl⟩, -⟩ := get_direction_shape bml ctx s ty e ri _ s' ri' h
  exact ⟨normalizeDirection_nonneg x, normalizeDirection_le x⟩

/-- Witness for C5: evaluating the absolute direction 360 yields a value in
[0, 360] (here exactly 360). -/
theorem c5_get_direction_witness : 0 ≤ c5res.1 ∧ c5res.1 ≤ 360 :=
  c5_get_direction_in_closed_interval miniDoc (cexCtx 0) (initEngine none [])
    (some .Absolute) (.Const 360) 0 c5res.1 c5res.2.1 c5res.2.2 (by decide)

/-- Counterexample for C5 as stated: (a) a spawned bullet whose `direction`
child is absolute 360 is reported to the host with direction exactly 360,
which is not in the half-open interval [0, 360); (b) a bullet with no
`direction` child is reported with the host's aim direction verbatim (here
-10, negative); (c) a change-direction ramp (from 350 toward absolute 10,
shortest path) emits the mutation value 370 > 360. -/
theorem c5_direction_counterexample :
    ((runFrames dir360Doc 100 (initEngine none []) 0 [cexCtx 0]).map
        (fun r => framesTrace r.2.2) = some [Command.createSimpleBullet 360 10]
      ∧ ¬ ((360 : ℚ) < 360)) ∧
    ((runFrames miniDoc 100 (initEngine none []) 0 [aimCtx 0]).map
        (fun r => framesTrace r.2.2) = some [Command.createSimpleBullet (-10) 10]
      ∧ ((-10 : ℚ) < 0)) ∧
    ((changes (cd350Ctx 20) cdState).2 = [Command.changeDirection 370]
      ∧ ((370 : ℚ) > 360)) := by
  refine ⟨⟨by decide, by norm_num⟩, ⟨by decide, by norm_num⟩, ⟨by decide, by norm_num⟩⟩

/-- C10 (amended): with a sequence-typed speed and no recorded previous
speed, `get_speed` returns exactly 1 regardless of the expression's value
and records 1 as the new previous speed; with a sequence-typed direction
and no recorded previous direction, `get_direction` returns the host's aim
direction normalized into [0, 360] — equal to the aim direction itself
whenever that lies in [0, 360) — regardless of the expression's value, and
records it as the new previous direction. -/
theorem c10_sequence_defaults (bml : BulletML) (ctx : Ctx) (s : RunnerImpl)
    (e : BulletMLExpression) (ri : Nat) (v : ℚ) (ri₁ : Nat)
    (hsv : s.prev_spd.is_valid = false)
    (hdv : s.prev_dir.is_valid = false)
    (hgnc : get_number_contents bml ctx s e ri = some (v, ri₁)) :
    get_speed bml ctx s (some .Sequence) e ri
      = some (1, { s with prev_spd := ⟨1, true⟩ }, ri₁) ∧
    get_direction bml ctx s (some .Sequence) e ri
      = some (normalizeDirection ctx.aimDirection,
          { s with prev_dir := ⟨normalizeDirection ctx.aimDirection, true⟩ }, ri₁) ∧
    (0 ≤ ctx.aimDirection → ctx.aimDirection < 360 →
      normalizeDirection ctx.aimDirection = ctx.aimDirection) := by
  have hsv' : s.prev_spd.valid = false := by simpa [Validatable.is_valid] using hsv
  have hdv' : s.prev_dir.valid = false := by simpa [Validatable.is_valid] using hdv
  refine ⟨?_, ?_, fun h0 h1 => normalizeDirection_id _ h0 h1⟩
  · simp [get_speed, hgnc, hsv', Validatable.is_valid, Validatable.set]
  · simp [get_direction, hgnc, hdv', Validatable.is_valid, Validatable.set]

/-- Witness for C10: fresh engine, expression value 999, aim direction 0. -/
theorem c10_sequence_defaults_witness :
    get_speed miniDoc (cexCtx 0) (initEngine none []) (some .Sequence) (.Const 999) 0
      = some (1, { initEngine none [] with prev_spd := ⟨1, true⟩ }, 0) ∧
    get_direction miniDoc (cexCtx 0) (initEngine none []) (some .Sequence) (.Const 999) 0
      = some (normalizeDirection (cexCtx 0).aimDirection,
          { initEngine none [] with prev_dir := ⟨normalizeDirection (cexCtx 0).aimDirection, true⟩ }, 0) ∧
    (0 ≤ (cexCtx 0).aimDirection → (cexCtx 0).aimDirection < 360 →
      normalizeDirection (cexCtx 0).aimDirection = (cexCtx 0).aimDirection) :=
  c10_sequence_defaults miniDoc (cexCtx 0) (initEngine none []) (.Const 999) 0 999 0
    (by decide) (by decide) (by decide)

/-- Counterexample for C10 as stated: with aim direction -10 (outside
[0, 360)), the sequence-typed direction with no previous value evaluates to
350 — the normalized aim — not to the host's aim direction -10. -/
theorem c10_counterexample :
    (get_direction miniDoc (aimCtx 0) (initEngine none []) (some .Sequence) (.Const 999) 0).map
        (fun r => r.1) = some 350 ∧
    (350 : ℚ) ≠ (aimCtx 0).aimDirection := by
  refine ⟨by decide, by norm_num [aimCtx, cexCtx]⟩

end BulletMLRs

namespace BulletMLRs

lemma rampStep_term (now : Nat) (f : LinearFunc) (mk : ℚ → Command)
    (h : f.is_last now = true) :
    rampStep now (some f) mk = (none, [mk f.last_y]) := by
  simp [rampStep, h, LinearFunc.get_last]

lemma rampStep_filter_none (now : Nat) (o : Option LinearFunc)
    (mk : ℚ → Command) (p : Command → Bool) (h : ∀ q, p (mk q) = false) :
    List.filter p (rampStep now o mk).2 = [] := by
  rcases o with _ | f
  · simp [rampStep]
  · rw [rampStep]
    split
    · simp [h]
    · simp [h]

set_option maxHeartbeats 1600000 in
/-- C6: for each of the four ramp kinds, when the ramp is live and the
current turn is at or after its `last_turn`, the frame's `changes` pass
emits exactly one command of that kind whose value is exactly the ramp's
stored `last_y` (not the interpolation formula `get_value`), and the ramp
is cleared afterwards. -/
theorem c6_ramp_terminal_exact (ctx : Ctx) (s : RunnerImpl) :
    (∀ f, s.change_dir = some f → f.last_x ≤ ctx.turn →
      (changes ctx s).2.filter Command.isChangeDirection
          = [Command.changeDirection f.last_y]
        ∧ (changes ctx s).1.change_dir = none) ∧
    (∀ f, s.change_spd = some f → f.last_x ≤ ctx.turn →
      (changes ctx s).2.filter Command.isChangeSpeed
          = [Command.changeSpeed f.last_y]
        ∧ (changes ctx s).1.change_spd = none) ∧
    (∀ f, s.accel_x = some f → f.last_x ≤ ctx.turn →
      (changes ctx s).2.filter Command.isAccelX = [Command.accelX f.last_y]
        ∧ (changes ctx s).1.accel_x = none) ∧
    (∀ f, s.accel_y = some f → f.last_x ≤ ctx.turn →
      (changes ctx s).2.filter Command.isAccelY = [Command.accelY f.last_y]
        ∧ (changes ctx s).1.accel_y = none) := by
  refine ⟨?_, ?_, ?_, ?_⟩
  all_goals intro f hf hle
  all_goals
    have hl : f.is_last ctx.turn = true := by
      simp only [LinearFunc.is_last, decide_eq_true_eq]
      exact hle
  all_goals
    simp only [changes, hf, List.filter_append]
  all_goals
    rw [rampStep_term _ _ _ hl]
  all_goals
    refine ⟨?_, rfl⟩
  all_goals
    rw [rampStep_filter_none _ _ _ _ (fun q => rfl),
      rampStep_filter_none _ _ _ _ (fun q => rfl),
      rampStep_filter_none _ _ _ _ (fun q => rfl)]
  all_goals
    simp [Command.isChangeDirection, Command.isChangeSpeed, Command.isAccelX,
      Command.isAccelY]

/-- Witness for C6: a state with all four ramps live, queried at turn 5
past their common terminal turn 3. -/
theorem c6_ramp_terminal_witness :
    ((changes (cexCtx 5) c6s).2.filter Command.isChangeDirection
        = [Command.changeDirection c6fd.last_y]
      ∧ (changes (cexCtx 5) c6s).1.change_dir = none) ∧
    ((changes (cexCtx 5) c6s).2.filter Command.isChangeSpeed
        = [Command.changeSpeed c6fs.last_y]
      ∧ (changes (cexCtx 5) c6s).1.change_spd = none) ∧
    ((changes (cexCtx 5) c6s).2.filter Command.isAccelX
        = [Command.accelX c6fx.last_y]
      ∧ (changes (cexCtx 5) c6s).1.accel_x = none) ∧
    ((changes (cexCtx 5) c6s).2.filter Command.isAccelY
        = [Command.accelY c6fy.last_y]
      ∧ (changes (cexCtx 5) c6s).1.accel_y = none) := by
  obtain ⟨h1, h2, h3, h4⟩ := c6_ramp_terminal_exact (cexCtx 5) c6s
  exact ⟨h1 c6fd (by decide) (by decide), h2 c6fs (by decide) (by decide),
    h3 c6fx (by decide) (by decide), h4 c6fy (by decide) (by decide)⟩

/-- C8: `Runner::is_end` returns true exactly when at least one contained
Elementary Engine has reached its ended state (group-ended-on-first
semantics, not all-ended); in particular it is false for an empty group. -/
theorem c8_runner_is_end_iff_exists (runners : List RunnerImpl) :
    Runner.is_end runners = true ↔ ∃ r ∈ runners, RunnerImpl.is_end r = true := by
  induction runners with
  | nil => simp [Runner.is_end]
  | cons r rest ih =>
    rw [Runner.is_end]
    by_cases hr : RunnerImpl.is_end r = true
    · rw [if_pos hr]
      simp only [true_iff]
      exact ⟨r, List.mem_cons_self r rest, hr⟩
    · rw [if_neg hr, ih]
      constructor
      · rintro ⟨x, hx, hex⟩
        exact ⟨x, List.mem_cons_of_mem _ hx, hex⟩
      · rintro ⟨x, hx, hex⟩
        rcases List.mem_cons.mp hx with rfl | hx'
        · exact absurd hex hr
        · exact ⟨x, hx', hex⟩

end BulletMLRs

namespace BulletMLRs

lemma is_top_action_iff (n : BulletMLNode) :
    n.is_top_action = true ↔ ∃ l, n = .Action (some l) ∧ strStartsWith l "top" = true := by
  cases n with
  | Action ol =>
    cases ol with
    | none => simp [BulletMLNode.is_top_action]
    | some l => simp [BulletMLNode.is_top_action]
  | _ => simp [BulletMLNode.is_top_action]

/-- C9: `Runner::new` builds one Elementary Engine (single root cursor,
empty parameter list) for exactly those document-root children that are
`action` nodes with a label starting with "top" — so "top", "top1",
"topfoo" qualify while unlabeled actions, other labels, bullets and fires
do not — and a document with no such action yields a Runner with zero
engines whose `is_end` is false and stays false under `run`. -/
theorem c9_top_action_engines (bml : BulletML) :
    (∀ e ∈ Runner.new bml, ∃ c ∈ childrenList bml bml.root, ∃ l,
        (getNode bml c).get = .Action (some l) ∧ strStartsWith l "top" = true ∧
        e = RunnerImpl.new ⟨bml.get_type, [c], []⟩) ∧
    (∀ c ∈ childrenList bml bml.root, ∀ l,
        (getNode bml c).get = .Action (some l) → strStartsWith l "top" = true →
        RunnerImpl.new ⟨bml.get_type, [c], []⟩ ∈ Runner.new bml) ∧
    (BulletMLNode.is_top_action (.Action (some "top")) = true ∧
      BulletMLNode.is_top_action (.Action (some "top1")) = true ∧
      BulletMLNode.is_top_action (.Action (some "topfoo")) = true ∧
      BulletMLNode.is_top_action (.Action (some "left")) = false ∧
      BulletMLNode.is_top_action (.Action none) = false ∧
      (∀ t, BulletMLNode.is_top_action (.Bullet t) = false) ∧
      (∀ t, BulletMLNode.is_top_action (.Fire t) = false)) ∧
    ((∀ c ∈ childrenList bml bml.root, (getNode bml c).get.is_top_action = false) →
      Runner.new bml = []) ∧
    Runner.is_end [] = false ∧
    (∀ ctx fuel ri, Runner.run bml ctx fuel [] ri = some ([], ri, [])) := by
  refine ⟨?_, ?_, ?_, ?_, rfl, fun ctx fuel ri => rfl⟩
  · intro e he
    rw [Runner.new] at he
    obtain ⟨c, hc, rfl⟩ := List.mem_map.mp he
    obtain ⟨hmem, htop⟩ := List.mem_filter.mp hc
    obtain ⟨l, hl, hstart⟩ := (is_top_action_iff _).mp htop
    exact ⟨c, hmem, l, hl, hstart, rfl⟩
  · intro c hc l hl hstart
    rw [Runner.new]
    apply List.mem_map.mpr
    refine ⟨c, List.mem_filter.mpr ⟨hc, ?_⟩, rfl⟩
    exact (is_top_action_iff _).mpr ⟨l, hl, hstart⟩
  · exact ⟨by decide, by decide, by decide, by decide, rfl, fun t => rfl, fun t => rfl⟩
  · intro hall
    rw [Runner.new]
    have : (childrenList bml bml.root).filter
        (fun c => (getNode bml c).get.is_top_action) = [] := by
      apply List.filter_eq_nil_iff.mpr
      intro a ha
      simp [hall a ha]
    rw [this]
    rfl

/-- Witness for C9: the "top"-labeled action of `miniDoc` (node 1) gets an
engine. -/
theorem c9_top_action_engines_witness :
    RunnerImpl.new ⟨miniDoc.get_type, [1], []⟩ ∈ Runner.new miniDoc :=
  (c9_top_action_engines miniDoc).2.1 1 (by decide) "top" (by decide) (by decide)

/-- C7: the engine is a pure function of the document, the initial engine
state and the per-frame host inputs (query return values, turn numbers and
the random stream are all part of `Ctx`): two runs fed identical inputs
produce identical results — the same command sequence, in the same order,
and the same final state. -/
theorem c7_deterministic_replay (bml : BulletML) (fuel : Nat) (s : RunnerImpl)
    (ri : Nat) (ctxs₁ ctxs₂ : List Ctx) (h : ctxs₁ = ctxs₂) :
    runFrames bml fuel s ri ctxs₁ = runFrames bml fuel s ri ctxs₂ := by
  rw [h]

/-- Witness for C7 at a concrete document and input sequence. -/
theorem c7_deterministic_replay_witness :
    runFrames miniDoc 100 (initEngine none []) 0 [cexCtx 0, cexCtx 1]
      = runFrames miniDoc 100 (initEngine none []) 0 [cexCtx 0, cexCtx 1] :=
  c7_deterministic_replay miniDoc 100 (initEngine none []) 0 _ _ rfl

/-- C2: the three run-time failure classes are not recoverable in this
code base: they hit Rust panics (embedded as `none`), aborting the frame
step rather than marking the engine ended — (a) a dangling `actionRef`
label indexes the label `HashMap`; (b) a `$1` parameter reference with an
empty active parameter list indexes `parameters[0]` out of range; (c) a
`repeat` without a loop-body child unwraps `None`. -/
theorem c2_runtime_failures_panic :
    runFrame danglingDoc (cexCtx 0) 100 (initEngine none []) 0 = none ∧
    runFrame paramDoc (cexCtx 0) 100 (initEngine none []) 0 = none ∧
    runFrame malformedRepDoc (cexCtx 0) 100 (initEngine none []) 0 = none := by
  exact ⟨by decide, by decide, by decide⟩

end BulletMLRs

namespace BulletMLRs

lemma runSubFuel_act_iter :
    ∀ (bml : BulletML) (ctx : Ctx) (f : Nat) (c c' : Config),
    runSubFuel bml ctx f c = some c' → c'.s.act_iter = c.s.act_iter := by
  intro bml ctx f
  induction f with
  | zero => intro c c' h; rw [runSubFuel] at h; exact absurd h (by simp)
  | succ n ih =>
    intro c c' h
    rw [runSubFuel] at h
    cases hstep : subStep bml ctx c with
    | fail => rw [hstep] at h; exact absurd h (by simp)
    | halt c₁ =>
      rw [hstep] at h
      simp only [Option.some.injEq] at h
      rw [← h, subStep_halt_eq bml ctx c c₁ hstep]
    | next c₁ =>
      rw [hstep] at h
      rw [ih c₁ c' h, (subStep_next_inv bml ctx c c₁ hstep).1]

lemma changes_act_iter (ctx : Ctx) (s : RunnerImpl) :
    (changes ctx s).1.act_iter = s.act_iter := rfl

lemma runFrame_act_iter_le (bml : BulletML) (ctx : Ctx) (fuel : Nat)
    (s : RunnerImpl) (ri : Nat) (s' : RunnerImpl) (ri' : Nat)
    (ramp sub : List Command)
    (h : runFrame bml ctx fuel s ri = some (s', ri', ramp, sub)) :
    s.act_iter ≤ s'.act_iter := by
  rw [runFrame] at h
  by_cases hend : s.is_end = true
  · rw [if_pos hend] at h
    simp only [Option.some.injEq, Prod.mk.injEq] at h
    rw [← h.1]
  · rw [if_neg hend] at h
    have hch := changes_act_iter ctx s
    rcases hcs : changes ctx s with ⟨s₁, cmds₁⟩
    rw [hcs] at h hch
    dsimp only at h hch
    split at h
    · split at h
      all_goals
        simp only [Option.some.injEq, Prod.mk.injEq] at h
        rw [← h.1]
        simp [hch]
    · simp only [Option.bind_eq_bind, Option.bind_eq_some] at h
      obtain ⟨c₁, hrun, h⟩ := h
      split at hrun
      all_goals
        have hai := runSubFuel_act_iter bml ctx fuel _ c₁ hrun
        dsimp only at hai
        split at h
      all_goals
        try split at h
      all_goals
        simp only [Option.some.injEq, Prod.mk.injEq] at h
        rw [← h.1]
        simp only [hai, hch]
        try omega

/-- C3 (amended): root cursors never run out of order — across any
multi-frame run, the index of the active root cursor recorded at each
frame start (the cursor whose subtree emits that frame's tree-walk
commands) is monotonically non-decreasing, and every recorded cursor index
is at least the starting one.  The original claim's stronger consequence —
that no host command of a later cursor is ever emitted before the last
host command of an earlier cursor — fails for ramp mutation commands (see
the counterexample): a ramp installed by an earlier cursor keeps emitting
in `changes` after a later cursor has begun. -/
theorem c3_cursor_monotone (bml : BulletML) (fuel : Nat) :
    ∀ (s : RunnerImpl) (ri : Nat) (ctxs : List Ctx) (s' : RunnerImpl)
      (ri' : Nat) (outs : List FrameOut),
    runFrames bml fuel s ri ctxs = some (s', ri', outs) →
    List.Chain' (· ≤ ·) (outs.map FrameOut.cursor)
      ∧ (∀ o ∈ outs, s.act_iter ≤ o.cursor) := by
  intro s ri ctxs
  induction ctxs generalizing s ri with
  | nil =>
    intro s' ri' outs h
    rw [runFrames] at h
    simp only [Option.some.injEq, Prod.mk.injEq] at h
    rw [← h.2.2]
    simp
  | cons ctx rest ih =>
    intro s' ri' outs h
    rw [runFrames] at h
    simp only [Option.bind_eq_bind, Option.bind_eq_some] at h
    obtain ⟨⟨s₁, ri₁, ramp₁, sub₁⟩, hframe, h⟩ := h
    obtain ⟨⟨s₂, ri₂, outs₂⟩, hrest, h⟩ := h
    simp only [Option.some.injEq, Prod.mk.injEq] at h
    obtain ⟨h1, h2, h3⟩ := h
    subst h1
    subst h2
    subst h3
    obtain ⟨hchain, hall⟩ := ih s₁ ri₁ s₂ ri₂ outs₂ hrest
    have hle : s.act_iter ≤ s₁.act_iter :=
      runFrame_act_iter_le bml ctx fuel s ri s₁ ri₁ ramp₁ sub₁ hframe
    constructor
    · rw [List.map_cons]
      apply List.chain'_cons'.mpr
      refine ⟨?_, hchain⟩
      intro b hb
      rcases outs₂ with _ | ⟨o, os⟩
      · simp at hb
      · simp only [List.map_cons, List.head?_cons, Option.mem_def,
          Option.some.injEq] at hb
        subst hb
        exact le_trans hle (hall o (List.mem_cons_self o os))
    · intro o ho
      rcases List.mem_cons.mp ho with rfl | ho'
      · exact le_refl _
      · exact le_trans hle (hall o ho')

/-- Counterexample for C3 as stated: a two-root-cursor instance whose
first cursor installs a speed ramp (changeSpeed to 5 over 3 turns) and is
then exhausted, and whose second cursor is a lone `vanish`.  The second
cursor's `vanish` is emitted on frame 1, while the first cursor's ramp
still emits `do_change_speed` commands on frames 2 and 3 — so a later
cursor's command precedes the earlier cursor's last command. -/
theorem c3_counterexample :
    (runFrames twoCursorDoc 100 (RunnerImpl.new ⟨none, [1, 2], []⟩) 0
        ((List.range 4).map cexCtx)).map (fun r => r.2.2)
      = some [⟨[], [], 0⟩, ⟨[Command.changeSpeed 3], [Command.vanish], 1⟩,
          ⟨[Command.changeSpeed 4], [], 2⟩, ⟨[Command.changeSpeed 5], [], 2⟩] ∧
    (runFrames twoCursorDoc 100 (RunnerImpl.new ⟨none, [1, 2], []⟩) 0
        ((List.range 4).map cexCtx)).map (fun r => framesTrace r.2.2)
      = some [Command.changeSpeed 3, Command.vanish, Command.changeSpeed 4,
          Command.changeSpeed 5] := by
  exact ⟨by decide, by decide⟩

end BulletMLRs

namespace BulletMLRs

lemma runSubFuel_next (bml : BulletML) (ctx : Ctx) (n : Nat) (c c' : Config)
    (h : subStep bml ctx c = .next c') :
    runSubFuel bml ctx (n + 1) c = runSubFuel bml ctx n c' := by
  rw [runSubFuel, h]

lemma runSubFuel_halt_step (bml : BulletML) (ctx : Ctx) (n : Nat) (c c' : Config)
    (h : subStep bml ctx c = .halt c') :
    runSubFuel bml ctx (n + 1) c = some c' := by
  rw [runSubFuel, h]

lemma is_turn_end_false_of (s : RunnerImpl) (h1 : s.ended = false)
    (h2 : s.act_turn = some s.end_turn) : is_turn_end s = false := by
  simp [is_turn_end, RunnerImpl.is_end, h1, h2]

lemma c1_step1 (bt : Option BulletMLType) (ps : List ℚ) (t : Nat)
    (e : BulletMLExpression) (slab : List FExpr) (ctx : Ctx) (i N ri : Nat)
    (tr : List Command) :
    subStep (repDoc e slab) ctx ⟨c1Mid bt ps t i N, .exec, ri, tr⟩
      = .next ⟨{ c1Mid bt ps t i N with act := some 5 }, .climb 4, ri, tr⟩ := by
  rw [subStep]
  dsimp only [c1Mid, c1S]
  rw [is_turn_end_false_of _ rfl rfl]
  rfl

end BulletMLRs

namespace BulletMLRs

lemma c1_step2 (bt : Option BulletMLType) (ps : List ℚ) (t : Nat)
    (e : BulletMLExpression) (slab : List FExpr) (ctx : Ctx) (i N ri : Nat)
    (tr : List Command) :
    subStep (repDoc e slab) ctx ⟨{ c1Mid bt ps t i N with act := some 5 }, .climb 4, ri, tr⟩
      = .next ⟨{ c1Mid bt ps t i N with act := some 5 }, .exec, ri, tr⟩ := rfl

lemma c1_step3 (bt : Option BulletMLType) (ps : List ℚ) (t : Nat)
    (e : BulletMLExpression) (slab : List FExpr) (ctx : Ctx) (i N ri : Nat)
    (tr : List Command) :
    subStep (repDoc e slab) ctx ⟨{ c1Mid bt ps t i N with act := some 5 }, .exec, ri, tr⟩
      = .next ⟨{ c1Mid bt ps t i N with act := none }, .climb 5, ri, tr ++ [Command.vanish]⟩ := by
  rw [subStep]
  dsimp only [c1Mid, c1S]
  rw [is_turn_end_false_of _ rfl rfl]
  rfl

lemma c1_step4 (bt : Option BulletMLType) (ps : List ℚ) (t : Nat)
    (e : BulletMLExpression) (slab : List FExpr) (ctx : Ctx) (i N ri : Nat)
    (tr : List Command) :
    subStep (repDoc e slab) ctx ⟨{ c1Mid bt ps t i N with act := none }, .climb 5, ri, tr⟩
      = .next ⟨{ c1Mid bt ps t i N with act := none }, .climb 4, ri, tr⟩ := rfl

lemma c1_step5a (bt : Option BulletMLType) (ps : List ℚ) (t : Nat)
    (e : BulletMLExpression) (slab : List FExpr) (ctx : Ctx) (i N ri : Nat)
    (tr : List Command) (hlt : i + 1 < N) :
    subStep (repDoc e slab) ctx ⟨{ c1Mid bt ps t i N with act := none }, .climb 4, ri, tr⟩
      = .next ⟨c1Mid bt ps t (i + 1) N, .exec, ri, tr⟩ := by
  rw [subStep]
  show (if i + 1 < N then
        StepRes.next ⟨c1Mid bt ps t (i + 1) N, .exec, ri, tr⟩
      else StepRes.next ⟨c1End bt ps t, .climb 2, ri, tr⟩)
    = .next ⟨c1Mid bt ps t (i + 1) N, .exec, ri, tr⟩
  rw [if_pos hlt]

lemma c1_step5b (bt : Option BulletMLType) (ps : List ℚ) (t : Nat)
    (e : BulletMLExpression) (slab : List FExpr) (ctx : Ctx) (i N ri : Nat)
    (tr : List Command) (hge : ¬ (i + 1 < N)) :
    subStep (repDoc e slab) ctx ⟨{ c1Mid bt ps t i N with act := none }, .climb 4, ri, tr⟩
      = .next ⟨c1End bt ps t, .climb 2, ri, tr⟩ := by
  rw [subStep]
  show (if i + 1 < N then
        StepRes.next ⟨c1Mid bt ps t (i + 1) N, .exec, ri, tr⟩
      else StepRes.next ⟨c1End bt ps t, .climb 2, ri, tr⟩)
    = .next ⟨c1End bt ps t, .climb 2, ri, tr⟩
  rw [if_neg hge]

lemma c1_step6 (bt : Option BulletMLType) (ps : List ℚ) (t : Nat)
    (e : BulletMLExpression) (slab : List FExpr) (ctx : Ctx) (ri : Nat)
    (tr : List Command) :
    subStep (repDoc e slab) ctx ⟨c1End bt ps t, .climb 2, ri, tr⟩
      = .next ⟨c1End bt ps t, .climb 1, ri, tr⟩ := rfl

lemma c1_step7 (bt : Option BulletMLType) (ps : List ℚ) (t : Nat)
    (e : BulletMLExpression) (slab : List FExpr) (ctx : Ctx) (ri : Nat)
    (tr : List Command) :
    subStep (repDoc e slab) ctx ⟨c1End bt ps t, .climb 1, ri, tr⟩
      = .next ⟨c1End bt ps t, .exec, ri, tr⟩ := rfl

lemma c1_step8 (bt : Option BulletMLType) (ps : List ℚ) (t : Nat)
    (e : BulletMLExpression) (slab : List FExpr) (ctx : Ctx) (ri : Nat)
    (tr : List Command) :
    subStep (repDoc e slab) ctx ⟨c1End bt ps t, .exec, ri, tr⟩
      = .halt ⟨c1End bt ps t, .exec, ri, tr⟩ := rfl

lemma c1_p1 (bt : Option BulletMLType) (ps : List ℚ) (t : Nat)
    (e : BulletMLExpression) (slab : List FExpr) (ctx : Ctx) (ri : Nat)
    (tr : List Command) :
    subStep (repDoc e slab) ctx ⟨c1S bt ps t, .exec, ri, tr⟩
      = .next ⟨c1SA bt ps t, .climb 1, ri, tr⟩ := by
  rw [subStep]
  dsimp only [c1S]
  rw [is_turn_end_false_of _ rfl rfl]
  rfl

lemma c1_p2 (bt : Option BulletMLType) (ps : List ℚ) (t : Nat)
    (e : BulletMLExpression) (slab : List FExpr) (ctx : Ctx) (ri : Nat)
    (tr : List Command) :
    subStep (repDoc e slab) ctx ⟨c1SA bt ps t, .climb 1, ri, tr⟩
      = .next ⟨c1SA bt ps t, .exec, ri, tr⟩ := rfl

lemma execStep_repeat (bml : BulletML) (ctx : Ctx) (c : Config) (act : Nat)
    (h : (getNode bml act).get = .Repeat) :
    execStep bml ctx c act
      = match run_repeat bml ctx c.s act c.ri with
        | none => .fail
        | some (s, ri) => .next ⟨s, .climb act, ri, c.trace⟩ := by
  rw [execStep, h]

lemma c1_run_repeat (bt : Option BulletMLType) (ps : List ℚ) (t : Nat)
    (e : BulletMLExpression) (slab : List FExpr) (ctx : Ctx) (ri ri₁ : Nat) (v : ℚ)
    (heval : get_number_contents (repDoc e slab) ctx
        (c1SA bt ps t) e ri = some (v, ri₁)) :
    run_repeat (repDoc e slab) ctx (c1SA bt ps t) 2 ri
      = some (c1Mid bt ps t 0 (ratToNat v), ri₁) := by
  rw [run_repeat]
  rw [show get_first_child_matching (repDoc e slab) 2 BulletMLNode.match_times = some e from rfl]
  show Bind.bind (get_number_contents (repDoc e slab) ctx (c1SA bt ps t) e ri)
      (fun p => some (c1Mid bt ps t 0 (ratToNat p.1), p.2)) = _
  rw [heval]
  rfl

lemma c1_p3 (bt : Option BulletMLType) (ps : List ℚ) (t : Nat)
    (e : BulletMLExpression) (slab : List FExpr) (ctx : Ctx) (ri ri₁ : Nat) (v : ℚ)
    (tr : List Command)
    (heval : get_number_contents (repDoc e slab) ctx
        (c1SA bt ps t) e ri = some (v, ri₁)) :
    subStep (repDoc e slab) ctx ⟨c1SA bt ps t, .exec, ri, tr⟩
      = .next ⟨c1Mid bt ps t 0 (ratToNat v), .climb 2, ri₁, tr⟩ := by
  have hstep : subStep (repDoc e slab) ctx ⟨c1SA bt ps t, .exec, ri, tr⟩
      = execStep (repDoc e slab) ctx ⟨c1SA bt ps t, .exec, ri, tr⟩ 2 := by
    rw [subStep]
    dsimp only [c1SA, c1S]
    rw [is_turn_end_false_of _ rfl rfl]
    rfl
  rw [hstep, execStep_repeat (repDoc e slab) ctx ⟨c1SA bt ps t, .exec, ri, tr⟩ 2 rfl]
  dsimp only []
  rw [c1_run_repeat bt ps t e slab ctx ri ri₁ v heval]

lemma c1_p4 (bt : Option BulletMLType) (ps : List ℚ) (t : Nat)
    (e : BulletMLExpression) (slab : List FExpr) (ctx : Ctx) (N ri : Nat)
    (tr : List Command) :
    subStep (repDoc e slab) ctx ⟨c1Mid bt ps t 0 N, .climb 2, ri, tr⟩
      = .next ⟨c1Mid bt ps t 0 N, .exec, ri, tr⟩ := rfl

end BulletMLRs

namespace BulletMLRs

lemma c1_loop (bt : Option BulletMLType) (ps : List ℚ) (t : Nat)
    (e : BulletMLExpression) (slab : List FExpr) (ctx : Ctx) (N : Nat) :
    ∀ (k i ri : Nat) (tr : List Command), i + (k + 1) = max N 1 →
    runSubFuel (repDoc e slab) ctx (5 * (k + 1) + 3) ⟨c1Mid bt ps t i N, .exec, ri, tr⟩
      = some ⟨c1End bt ps t, .exec, ri, tr ++ List.replicate (k + 1) Command.vanish⟩ := by
  intro k
  induction k with
  | zero =>
    intro i ri tr hiN
    have hNle : N ≤ max N 1 := le_max_left N 1
    have hge : ¬ (i + 1 < N) := by omega
    exact (runSubFuel_next _ _ _ _ _ (c1_step1 bt ps t e slab ctx i N ri tr)).trans
      ((runSubFuel_next _ _ _ _ _ (c1_step2 bt ps t e slab ctx i N ri tr)).trans
      ((runSubFuel_next _ _ _ _ _ (c1_step3 bt ps t e slab ctx i N ri tr)).trans
      ((runSubFuel_next _ _ _ _ _ (c1_step4 bt ps t e slab ctx i N ri (tr ++ [Command.vanish]))).trans
      ((runSubFuel_next _ _ _ _ _ (c1_step5b bt ps t e slab ctx i N ri (tr ++ [Command.vanish]) hge)).trans
      ((runSubFuel_next _ _ _ _ _ (c1_step6 bt ps t e slab ctx ri (tr ++ [Command.vanish]))).trans
      ((runSubFuel_next _ _ _ _ _ (c1_step7 bt ps t e slab ctx ri (tr ++ [Command.vanish]))).trans
      (runSubFuel_halt_step _ _ _ _ _ (c1_step8 bt ps t e slab ctx ri (tr ++ [Command.vanish])))))))))
  | succ m ih =>
    intro i ri tr hiN
    have hlt : i + 1 < N := by
      rcases Nat.le_total 1 N with h | h
      · have hmax : max N 1 = N := Nat.max_eq_left h
        omega
      · have hmax : max N 1 = 1 := Nat.max_eq_right h
        omega
    have hsum : (i + 1) + (m + 1) = max N 1 := by omega
    have hchain := (runSubFuel_next _ _ _ _ _ (c1_step1 bt ps t e slab ctx i N ri tr)).trans
      ((runSubFuel_next _ _ _ _ _ (c1_step2 bt ps t e slab ctx i N ri tr)).trans
      ((runSubFuel_next _ _ _ _ _ (c1_step3 bt ps t e slab ctx i N ri tr)).trans
      ((runSubFuel_next _ _ _ _ _ (c1_step4 bt ps t e slab ctx i N ri (tr ++ [Command.vanish]))).trans
      ((runSubFuel_next _ _ _ _ _ (c1_step5a bt ps t e slab ctx i N ri (tr ++ [Command.vanish]) hlt)).trans
      (ih (i + 1) ri (tr ++ [Command.vanish]) hsum)))))
    rw [show tr ++ List.replicate (m + 1 + 1) Command.vanish
        = (tr ++ [Command.vanish]) ++ List.replicate (m + 1) Command.vanish by
      simp [List.replicate_succ, List.append_assoc]]
    exact hchain

end BulletMLRs

namespace BulletMLRs

lemma c1_run_sub (bt : Option BulletMLType) (ps : List ℚ) (t : Nat)
    (e : BulletMLExpression) (slab : List FExpr) (ctx : Ctx) (ri ri₁ : Nat) (v : ℚ)
    (heval : get_number_contents (repDoc e slab) ctx (c1SA bt ps t) e ri = some (v, ri₁)) :
    runSubFuel (repDoc e slab) ctx (5 * max (ratToNat v) 1 + 7) ⟨c1S bt ps t, .exec, ri, []⟩
      = some ⟨c1End bt ps t, .exec, ri₁, List.replicate (max (ratToNat v) 1) Command.vanish⟩ := by
  have hX : 1 ≤ max (ratToNat v) 1 := le_max_right (ratToNat v) 1
  rw [show max (ratToNat v) 1 = (max (ratToNat v) 1 - 1) + 1 from by omega]
  exact (runSubFuel_next _ _ _ _ _ (c1_p1 bt ps t e slab ctx ri [])).trans
    ((runSubFuel_next _ _ _ _ _ (c1_p2 bt ps t e slab ctx ri [])).trans
    ((runSubFuel_next _ _ _ _ _ (c1_p3 bt ps t e slab ctx ri ri₁ v [] heval)).trans
    ((runSubFuel_next _ _ _ _ _ (c1_p4 bt ps t e slab ctx (ratToNat v) ri₁ [])).trans
    (c1_loop bt ps t e slab ctx (ratToNat v) (max (ratToNat v) 1 - 1) 0 ri₁ [] (by omega)))))

end BulletMLRs

namespace BulletMLRs

/-- C1 (amended): in `repDoc` — a top action holding `repeat { times e; action { vanish } }` —
one frame of `RunnerImpl::run` executes the loop body exactly `max N 1` times, where
`N` is the `times` expression's value `v` truncated to a non-negative integer, evaluated
once at loop entry.  The body runs once, not zero times, when `N = 0`, because
`run_repeat` descends into the body unconditionally and the termination test
`rep.iter + 1 < rep.end_count` happens only after an iteration completes. -/
theorem c1_repeat_body_count (bt : Option BulletMLType) (ps : List ℚ)
    (e : BulletMLExpression) (slab : List FExpr) (ctx : Ctx) (ri ri₁ : Nat) (v : ℚ)
    (heval : get_number_contents (repDoc e slab) ctx (c1SA bt ps ctx.turn) e ri = some (v, ri₁)) :
    runFrame (repDoc e slab) ctx (5 * max (ratToNat v) 1 + 7) (RunnerImpl.new ⟨bt, [1], ps⟩) ri
      = some ({ c1End bt ps ctx.turn with act_iter := 1 }, ri₁, [],
          List.replicate (max (ratToNat v) 1) Command.vanish) := by
  have key := c1_run_sub bt ps ctx.turn e slab ctx ri ri₁ v heval
  rw [runFrame, if_neg (show ¬ ((RunnerImpl.new ⟨bt, [1], ps⟩).is_end = true) by
    simp [RunnerImpl.new, RunnerImpl.is_end])]
  show (do
      let c ← runSubFuel (repDoc e slab) ctx (5 * max (ratToNat v) 1 + 7)
        ⟨c1S bt ps ctx.turn, .exec, ri, []⟩
      let s := c.s
      let s :=
        match s.act with
        | none =>
          let s := { s with act_iter := s.act_iter + 1 }
          if s.act_iter < s.nodes.length then
            { s with act := some (s.nodes.getD s.act_iter 0) }
          else s
        | some a => { s with nodes := s.nodes.set s.act_iter a }
      some (s, c.ri, ([] : List Command), c.trace)) = _
  rw [key]
  rfl

end BulletMLRs

namespace BulletMLRs

/-- Witness for C1: with `times` = 3, one frame of the repeat document emits
exactly `max 3 1 = 3` vanish commands. -/
theorem c1_repeat_body_count_witness :
    get_number_contents (repDoc (BulletMLExpression.Const 3) []) (cexCtx 0)
        (c1SA none [] (cexCtx 0).turn) (BulletMLExpression.Const 3) 0 = some (3, 0)
    ∧ runFrame (repDoc (BulletMLExpression.Const 3) []) (cexCtx 0)
        (5 * max (ratToNat 3) 1 + 7) (RunnerImpl.new ⟨none, [1], []⟩) 0
      = some ({ c1End none [] (cexCtx 0).turn with act_iter := 1 }, 0, [],
          List.replicate (max (ratToNat 3) 1) Command.vanish) :=
  ⟨by decide,
    c1_repeat_body_count none [] (BulletMLExpression.Const 3) [] (cexCtx 0) 0 0 3 (by decide)⟩

/-- Counterexample for C1 as stated: with `times` = 0 the body runs once, not
zero times — the frame's tree walk emits one vanish command, not none. -/
theorem c1_counterexample :
    runFrame (repDoc (BulletMLExpression.Const 0) []) (cexCtx 0) 20
        (RunnerImpl.new ⟨none, [1], []⟩) 0
      = some ({ c1End none [] (cexCtx 0).turn with act_iter := 1 }, 0, [], [Command.vanish]) := by
  decide

end BulletMLRs

namespace BulletMLRs

/-- Witness for C3: the cursor-monotonicity theorem applied to a concrete
four-frame run of the two-cursor document. -/
theorem c3_cursor_monotone_witness :
    List.Chain' (· ≤ ·) (c3w.2.2.map FrameOut.cursor)
      ∧ (∀ o ∈ c3w.2.2, (RunnerImpl.new ⟨none, [1, 2], []⟩).act_iter ≤ o.cursor) :=
  c3_cursor_monotone twoCursorDoc 100 (RunnerImpl.new ⟨none, [1, 2], []⟩) 0
    ((List.range 4).map cexCtx) c3w.1 c3w.2.1 c3w.2.2 (by decide)

end BulletMLRs
